import Mathlib

/-!
Verification of the BoonLink payment-bridge extension.

The TypeScript sources are shallowly embedded: JS strings become `List Char`,
JS numbers become `ℚ` (all arithmetic appearing here is exact at the precision
the claims quantify over), JS `Map`s become association lists with last-write-wins
lookup, and stateful handlers become pure functions from explicit state and
oracle inputs (results of awaited service calls) to explicit outcomes.
The possibly non-terminating TLV scan loop is embedded with an explicit fuel
parameter; `none` means the loop has not terminated within the given fuel.
-/

namespace BoonLink

/-! ### JavaScript string and number primitives -/

/-- Characters matched by the `\s` regexp class and removed by `trim`
(ASCII whitespace plus NBSP, BOM and the line/paragraph separators). -/
def isJsWhitespace (c : Char) : Bool :=
  c == ' ' || c == '\t' || c == '\n' || c == '\r' ||
  c == Char.ofNat 11 || c == Char.ofNat 12 || c == Char.ofNat 0xA0 ||
  c == Char.ofNat 0xFEFF || c == Char.ofNat 0x2028 || c == Char.ofNat 0x2029

/-- Clamp a JS string index into `[0, len]` as `String.prototype.substring` does. -/
def jsClamp (n : Int) (len : Nat) : Nat := (max 0 (min n (len : Int))).toNat

/-- `s.substring(a, b)`: clamp both indices to the string bounds and swap them
when `a > b`. -/
def jsSubstring (s : List Char) (a b : Int) : List Char :=
  (s.drop (min (jsClamp a s.length) (jsClamp b s.length))).take
    (max (jsClamp a s.length) (jsClamp b s.length)
      - min (jsClamp a s.length) (jsClamp b s.length))

def isDigitChar (c : Char) : Bool := 48 ≤ c.toNat && c.toNat ≤ 57

def digitVal (c : Char) : Nat := c.toNat - 48

/-- Value of a list of decimal digit characters (most significant first). -/
def decToNat (l : List Char) : Nat := l.foldl (fun a c => 10 * a + digitVal c) 0

/-- Longest decimal-digit prefix of `s`, as a number; `none` when there is none. -/
def parseDigitsVal (s : List Char) : Option Nat :=
  let ds := s.takeWhile isDigitChar
  if ds.isEmpty then none else some (decToNat ds)

/-- `parseInt(s, 10)`: skip leading whitespace, read an optional sign and the
longest digit prefix; `none` models `NaN`. -/
def jsParseInt (s : List Char) : Option Int :=
  match s.dropWhile isJsWhitespace with
  | [] => none
  | c :: r =>
    if c = '-' then (parseDigitsVal r).map (fun n : Nat => -(n : Int))
    else if c = '+' then (parseDigitsVal r).map (fun n : Nat => (n : Int))
    else (parseDigitsVal (c :: r)).map (fun n : Nat => (n : Int))

/-- `parseFloat(s)` on the plain decimal notation used by this codebase
(sign, integer digits, optional fraction digits); `none` models `NaN`. -/
def jsParseFloat (s : List Char) : Option ℚ :=
  let s1 := s.dropWhile isJsWhitespace
  let sgn : ℚ := match s1 with
    | '-' :: _ => -1
    | _ => 1
  let s2 := match s1 with
    | '-' :: r => r
    | '+' :: r => r
    | _ => s1
  let ip := s2.takeWhile isDigitChar
  let rest := s2.dropWhile isDigitChar
  let fp := match rest with
    | '.' :: r => r.takeWhile isDigitChar
    | _ => []
  if ip.isEmpty && fp.isEmpty then none
  else some (sgn * ((decToNat ip : ℚ) + (decToNat fp : ℚ) / (10 : ℚ) ^ fp.length))

def digitChar : Nat → Char
  | 0 => '0' | 1 => '1' | 2 => '2' | 3 => '3' | 4 => '4'
  | 5 => '5' | 6 => '6' | 7 => '7' | 8 => '8' | _ => '9'

def hexDigitUpper : Nat → Char
  | 0 => '0' | 1 => '1' | 2 => '2' | 3 => '3' | 4 => '4'
  | 5 => '5' | 6 => '6' | 7 => '7' | 8 => '8' | 9 => '9'
  | 10 => 'A' | 11 => 'B' | 12 => 'C' | 13 => 'D' | 14 => 'E' | _ => 'F'

/-- Fuel-indexed digit printer; the fuel only bounds the recursion depth. -/
def natToDecGo : Nat → Nat → List Char
  | 0, n => [digitChar n]
  | fuel + 1, n =>
    if n < 10 then [digitChar n]
    else natToDecGo fuel (n / 10) ++ [digitChar (n % 10)]

/-- `n.toString()` for a natural number. -/
def natToDec (n : Nat) : List Char := natToDecGo n n

/-- Fuel-indexed hex printer; the fuel only bounds the recursion depth. -/
def natToHexUpperGo : Nat → Nat → List Char
  | 0, n => [hexDigitUpper n]
  | fuel + 1, n =>
    if n < 16 then [hexDigitUpper n]
    else natToHexUpperGo fuel (n / 16) ++ [hexDigitUpper (n % 16)]

/-- `n.toString(16).toUpperCase()` for a natural number. -/
def natToHexUpper (n : Nat) : List Char := natToHexUpperGo n n

/-- `s.padStart(k, c)`. -/
def padLeft (c : Char) (k : Nat) (l : List Char) : List Char :=
  List.replicate (k - l.length) c ++ l

/-- `String.prototype.toUpperCase` on the ASCII range used by the payloads. -/
def toUpperChar (c : Char) : Char :=
  match c with
  | 'a' => 'A' | 'b' => 'B' | 'c' => 'C' | 'd' => 'D' | 'e' => 'E'
  | 'f' => 'F' | 'g' => 'G' | 'h' => 'H' | 'i' => 'I' | 'j' => 'J'
  | 'k' => 'K' | 'l' => 'L' | 'm' => 'M' | 'n' => 'N' | 'o' => 'O'
  | 'p' => 'P' | 'q' => 'Q' | 'r' => 'R' | 's' => 'S' | 't' => 'T'
  | 'u' => 'U' | 'v' => 'V' | 'w' => 'W' | 'x' => 'X' | 'y' => 'Y'
  | 'z' => 'Z' | other => other

/-- `String.prototype.toLowerCase` on the ASCII range used by hex addresses. -/
def jsToLowerChar (c : Char) : Char :=
  match c with
  | 'A' => 'a' | 'B' => 'b' | 'C' => 'c' | 'D' => 'd' | 'E' => 'e'
  | 'F' => 'f' | 'G' => 'g' | 'H' => 'h' | 'I' => 'i' | 'J' => 'j'
  | 'K' => 'k' | 'L' => 'l' | 'M' => 'm' | 'N' => 'n' | 'O' => 'o'
  | 'P' => 'p' | 'Q' => 'q' | 'R' => 'r' | 'S' => 's' | 'T' => 't'
  | 'U' => 'u' | 'V' => 'v' | 'W' => 'w' | 'X' => 'x' | 'Y' => 'y'
  | 'Z' => 'z' | other => other

/-! ### CRC-16/CCITT-FALSE (the npm `crc` package's `crc16ccitt`) -/

/-- One bit step: shift left, xor with the 0x1021 polynomial when the top bit
was set, truncate to 16 bits. -/
def crc16Round (crc : Nat) : Nat :=
  if crc.testBit 15 then ((crc <<< 1) ^^^ 0x1021) % 65536 else (crc <<< 1) % 65536

/-- Fold one input byte into the running CRC (xor into the high byte, then
eight bit steps). -/
def crc16UpdateByte (crc b : Nat) : Nat :=
  crc16Round (crc16Round (crc16Round (crc16Round
    (crc16Round (crc16Round (crc16Round (crc16Round (crc ^^^ (b <<< 8)))))))))

/-- `crc16ccitt(buf)` with initial value `0xFFFF`. -/
def crc16ccitt (bytes : List Nat) : Nat := bytes.foldl crc16UpdateByte 0xFFFF

/-- `Buffer.from(s, 'utf8')` for the ASCII payloads occurring here. -/
def strBytes (s : List Char) : List Nat := s.map Char.toNat

/-- `crc.toString(16).toUpperCase().padStart(4, '0')`. -/
def crcHex4 (n : Nat) : List Char := padLeft '0' 4 (natToHexUpper n)

/-- `validateCRC` from `services/promptpay.ts`: the checksum is computed over
the payload without its last four characters and compared with those four
characters, uppercased. -/
def validateCRC (payload : List Char) : Bool :=
  let dataWithoutCRC := payload.take (payload.length - 4)
  let providedCRC := (payload.drop (payload.length - 4)).map toUpperChar
  let calculated := crcHex4 (crc16ccitt (strBytes dataWithoutCRC))
  calculated == providedCRC

/-! ### The TLV scanner (`parseTLV`) -/

abbrev TLVEntries := List (List Char × List Char)

/-- `Map.set`: for lookup purposes the later entry for a key wins (`tlvGet`). -/
def tlvSet (m : TLVEntries) (k v : List Char) : TLVEntries := m ++ [(k, v)]

/-- `Map.get`: the most recently set value for the key. -/
def tlvGet (m : TLVEntries) (k : List Char) : Option (List Char) :=
  (m.reverse.find? (fun e => e.1 == k)).map (fun e => e.2)

/-- The body of `parseTLV`'s `while (position < data.length)` loop.  The
position is an integer because a length field that parses negative moves it
backwards; a length field that parses as `NaN` (`none`) makes the value
`substring(position, NaN)` (which swaps to `substring(0, position)`) and then
drives the position to `NaN`, ending the loop.  `none` overall means the loop
has not finished within `fuel` iterations. -/
def parseTLVGo (data : List Char) : Nat → Int → TLVEntries → Option TLVEntries
  | 0, _, _ => none
  | fuel + 1, pos, acc =>
    if pos < (data.length : Int) then
      let tag := jsSubstring data pos (pos + 2)
      let lenStr := jsSubstring data (pos + 2) (pos + 4)
      match jsParseInt lenStr with
      | none => some (tlvSet acc tag (jsSubstring data (pos + 4) 0))
      | some len =>
        let value := jsSubstring data (pos + 4) (pos + 4 + len)
        parseTLVGo data fuel (pos + 4 + len) (tlvSet acc tag value)
    else some acc

/-- `parseTLV(data)` under the given fuel. -/
def parseTLV (data : List Char) (fuel : Nat) : Option TLVEntries :=
  parseTLVGo data fuel 0 []

/-- `parseTLV(data)` terminates. -/
def ParseTLVTerminates (data : List Char) : Prop :=
  ∃ fuel, (parseTLV data fuel).isSome

/-! ### PromptPay codec data model -/

inductive AccountType
  | phone
  | national_id
deriving DecidableEq

structure PromptPayAccount where
  accountId : List Char
  accountType : AccountType
deriving DecidableEq

/-- Parsed QR data.  `amount`'s outer `Option` is tag-54 absence (`undefined`),
the inner one is `parseFloat` yielding `NaN`. -/
structure PromptPayData where
  accountId : List Char
  accountType : AccountType
  merchantName : Option (List Char)
  amount : Option (Option ℚ)
  currency : List Char
  country : List Char
  rawPayload : List Char
  isValid : Bool
deriving DecidableEq

inductive PromptPayQRResult
  | ok (data : PromptPayData)
  | err (error : List Char)
deriving DecidableEq

def PROMPTPAY_AID : List Char := "A000000677010111".toList

def TAG_PAYLOAD_FORMAT : List Char := "00".toList

def TAG_POI_METHOD : List Char := "01".toList

def TAG_MERCHANT_ACCOUNT_INFO : List Char := "29".toList

def TAG_MERCHANT_ACCOUNT_INFO_ALT : List Char := "30".toList

def TAG_TRANSACTION_CURRENCY : List Char := "53".toList

def TAG_TRANSACTION_AMOUNT : List Char := "54".toList

def TAG_COUNTRY_CODE : List Char := "58".toList

def TAG_MERCHANT_NAME : List Char := "59".toList

def TAG_CRC : List Char := "63".toList

def SUBTAG_AID : List Char := "00".toList

def SUBTAG_PHONE : List Char := "01".toList

def SUBTAG_NATIONAL_ID : List Char := "02".toList

def PAYLOAD_FORMAT_01 : List Char := "01".toList

def DOUBLE_ZERO : List Char := "00".toList

def DEFAULT_CURRENCY : List Char := "764".toList

def DEFAULT_COUNTRY : List Char := "TH".toList

/-- JS `a || b` on optional strings: the empty string is falsy. -/
def jsOrStr : Option (List Char) → Option (List Char) → Option (List Char)
  | some s, b => if s.isEmpty then b else some s
  | none, b => b

/-- JS `a || d` with a string default. -/
def jsStrOrDefault (o : Option (List Char)) (d : List Char) : List Char :=
  match o with
  | some s => if s.isEmpty then d else s
  | none => d

/-- `extractPromptPayAccount(merchantInfo)`.  The outer `Option` is the fuel of
the inner `parseTLV`; `some none` is the function returning `null`. -/
def extractPromptPayAccount (fuel : Nat) (merchantInfo : List Char) :
    Option (Option PromptPayAccount) :=
  match parseTLV merchantInfo fuel with
  | none => none
  | some fields =>
    if tlvGet fields SUBTAG_AID ≠ some PROMPTPAY_AID then some none
    else
      match jsOrStr (tlvGet fields SUBTAG_PHONE) (tlvGet fields SUBTAG_NATIONAL_ID) with
      | none => some none
      | some pid =>
        if pid.isEmpty then some none
        else
          let accountId := if pid.take 2 = DOUBLE_ZERO then pid.drop 4 else pid
          if accountId.length = 13 then some (some ⟨accountId, .national_id⟩)
          else if accountId.length = 10 then some (some ⟨accountId, .phone⟩)
          else if accountId.length = 9 then some (some ⟨'0' :: accountId, .phone⟩)
          else some (some ⟨accountId, .phone⟩)

/-- `payload.trim().replace(/\s/g, '')`: all whitespace characters removed. -/
def cleanPayload (payload : List Char) : List Char :=
  payload.filter (fun c => !isJsWhitespace c)

def ERR_TOO_SHORT : List Char := "Invalid QR payload: too short".toList

def ERR_NO_ACCOUNT_INFO : List Char := "No PromptPay account information found".toList

def ERR_BAD_ACCOUNT : List Char := "Invalid PromptPay account format".toList

def UNDEFINED_STR : List Char := "undefined".toList

def errBadFormat (pf : Option (List Char)) : List Char :=
  "Unsupported payload format: ".toList ++ pf.getD UNDEFINED_STR

/-- `parsePromptPayQR(payload)`.  `none` means the TLV loop did not terminate
within `fuel` iterations. -/
def parsePromptPayQR (fuel : Nat) (payload : List Char) : Option PromptPayQRResult :=
  let clean := cleanPayload payload
  if clean.length < 20 then some (.err ERR_TOO_SHORT)
  else
    let isValidCRC := validateCRC clean
    match parseTLV clean fuel with
    | none => none
    | some fields =>
      if tlvGet fields TAG_PAYLOAD_FORMAT ≠ some PAYLOAD_FORMAT_01 then
        some (.err (errBadFormat (tlvGet fields TAG_PAYLOAD_FORMAT)))
      else
        match jsOrStr (tlvGet fields TAG_MERCHANT_ACCOUNT_INFO)
            (tlvGet fields TAG_MERCHANT_ACCOUNT_INFO_ALT) with
        | none => some (.err ERR_NO_ACCOUNT_INFO)
        | some mi =>
          if mi.isEmpty then some (.err ERR_NO_ACCOUNT_INFO)
          else
            match extractPromptPayAccount fuel mi with
            | none => none
            | some none => some (.err ERR_BAD_ACCOUNT)
            | some (some account) =>
              let amount : Option (Option ℚ) :=
                match tlvGet fields TAG_TRANSACTION_AMOUNT with
                | some s => if s.isEmpty then none else some (jsParseFloat s)
                | none => none
              some (.ok {
                accountId := account.accountId,
                accountType := account.accountType,
                merchantName := tlvGet fields TAG_MERCHANT_NAME,
                amount := amount,
                currency := jsStrOrDefault (tlvGet fields TAG_TRANSACTION_CURRENCY) DEFAULT_CURRENCY,
                country := jsStrOrDefault (tlvGet fields TAG_COUNTRY_CODE) DEFAULT_COUNTRY,
                rawPayload := clean,
                isValid := isValidCRC })

/-- `parsePromptPayQR(payload)` terminates. -/
def ParsePromptPayQRTerminates (payload : List Char) : Prop :=
  ∃ fuel, (parsePromptPayQR fuel payload).isSome

/-! ### The payload generator -/

/-- `n.toString().padStart(2, '0')`. -/
def lenDigits2 (n : Nat) : List Char := padLeft '0' 2 (natToDec n)

/-- `amount.toFixed(2)` for the nonnegative decimal amounts the generator is
called with: round to cents, render as integer part, point, two fraction
digits. -/
def toFixed2 (q : ℚ) : List Char :=
  let cents := (q * 100 + 1 / 2).floor.toNat
  natToDec (cents / 100) ++ '.' :: padLeft '0' 2 (natToDec (cents % 100))

def COUNTRY_PHONE_PREFIX : List Char := "0066".toList

def NATIONAL_ID_PREFIX : List Char := "00TH".toList

def FIELD_PAYLOAD_FORMAT : List Char := "000201".toList

def FIELD_POI_STATIC : List Char := "010211".toList

def FIELD_POI_DYNAMIC : List Char := "010212".toList

def FIELD_CURRENCY : List Char := "5303764".toList

def FIELD_COUNTRY : List Char := "5802TH".toList

def FIELD_CRC_PLACEHOLDER : List Char := "6304".toList

/-- `generatePromptPayPayload(accountId, amount?)`.  The `amount ? … : …`
conditionals treat `0` as falsy, as in the source. -/
def generatePromptPayPayload (accountId : List Char) (amount : Option ℚ) : List Char :=
  let isPhone := accountId.length ≤ 10
  let formattedId :=
    if isPhone then
      COUNTRY_PHONE_PREFIX ++ (if accountId.take 1 = ['0'] then accountId.drop 1 else accountId)
    else NATIONAL_ID_PREFIX ++ accountId
  let aidField := SUBTAG_AID ++ lenDigits2 PROMPTPAY_AID.length ++ PROMPTPAY_AID
  let idField := SUBTAG_PHONE ++ lenDigits2 formattedId.length ++ formattedId
  let merchantInfo := aidField ++ idField
  let merchantInfoField :=
    TAG_MERCHANT_ACCOUNT_INFO ++ lenDigits2 merchantInfo.length ++ merchantInfo
  let amtTruthy := match amount with
    | some a => decide (a ≠ 0)
    | none => false
  let amountField := match amount with
    | some a =>
      if a = 0 then [] else
        let s := toFixed2 a
        TAG_TRANSACTION_AMOUNT ++ lenDigits2 s.length ++ s
    | none => []
  let p1 := FIELD_PAYLOAD_FORMAT
    ++ (if amtTruthy then FIELD_POI_DYNAMIC else FIELD_POI_STATIC)
    ++ merchantInfoField
    ++ FIELD_CURRENCY
    ++ amountField
    ++ FIELD_COUNTRY
    ++ FIELD_CRC_PLACEHOLDER
  p1 ++ crcHex4 (crc16ccitt (strBytes p1))

/-! ### Exchange service (`services/exchange.ts`) -/

inductive SupportedToken
  | USDT
  | USDC
  | ETH
deriving DecidableEq

def tokenName : SupportedToken → String
  | .USDT => "USDT"
  | .USDC => "USDC"
  | .ETH => "ETH"

structure ExchangeRate where
  token : SupportedToken
  fiat : String
  rate : ℚ
  source : String
  timestamp : ℤ
  validUntil : ℤ
deriving DecidableEq

structure FeeInfo where
  network : ℚ
  service : ℚ
  total : ℚ
deriving DecidableEq

structure PaymentQuote where
  id : String
  amountTHB : ℚ
  amountCrypto : ℚ
  token : SupportedToken
  rate : ExchangeRate
  fee : FeeInfo
  promptPay : PromptPayData
  createdAt : ℤ
  expiresAt : ℤ
deriving DecidableEq

def RATE_VALIDITY_MS : ℤ := 5 * 60 * 1000

def QUOTE_VALIDITY_MS : ℤ := 3 * 60 * 1000

def SERVICE_FEE_PERCENT : ℚ := 1 / 2

def NETWORK_FEE_ESTIMATES : SupportedToken → ℚ
  | .USDT => 5
  | .USDC => 5
  | .ETH => 15

/-- `MockExchangeService.createQuote(amountTHB, token, promptPay)`.  The
awaited `getRate` result, `Date.now()` and `uuidv4()` enter as the `rate`,
`now` and `newId` parameters. -/
def MockExchangeService.createQuote (amountTHB : ℚ) (token : SupportedToken)
    (promptPay : PromptPayData) (rate : ExchangeRate) (now : ℤ) (newId : String) :
    PaymentQuote :=
  let amountCrypto := amountTHB / rate.rate
  let networkFee := NETWORK_FEE_ESTIMATES token / rate.rate
  let serviceFee := amountCrypto * (SERVICE_FEE_PERCENT / 100)
  let totalFee := networkFee + serviceFee
  { id := newId
    amountTHB := amountTHB
    amountCrypto := amountCrypto + totalFee
    token := token
    rate := rate
    fee := { network := networkFee, service := serviceFee, total := totalFee }
    promptPay := promptPay
    createdAt := now
    expiresAt := now + QUOTE_VALIDITY_MS }

/-! ### Order data model and the §4.4 transition graph -/

inductive PaymentStatus
  | init
  | quoted
  | signed
  | pending
  | settled
  | completed
  | expired
  | cancelled
  | failed
  | timeout
deriving DecidableEq

/-- The legal transition graph of §4.4, exactly as the claim lists it. -/
def legalTransition : PaymentStatus → PaymentStatus → Bool
  | .init, .quoted | .init, .cancelled => true
  | .quoted, .signed | .quoted, .expired | .quoted, .cancelled => true
  | .signed, .pending | .signed, .failed => true
  | .pending, .settled | .pending, .failed | .pending, .timeout => true
  | .settled, .completed | .settled, .failed => true
  | _, _ => false

/-- The transition graph the operations of this codebase actually write:
§4.4 extended with `QUOTED → FAILED` (insufficient balance in
`confirmPayment`) and `PENDING → COMPLETED` (the queue processor completes
without an intermediate `SETTLED` write). -/
def extendedTransition (a b : PaymentStatus) : Bool :=
  legalTransition a b ||
    (a == .quoted && b == .failed) || (a == .pending && b == .completed)

/-- A status-write trace is a chain: consecutive writes either repeat the same
status or follow the relation. -/
abbrev StatusChain (r : PaymentStatus → PaymentStatus → Bool) (l : List PaymentStatus) : Prop :=
  List.Chain' (fun a b => a = b ∨ r a b = true) l

structure TransactionSignature where
  signedTx : String
  fromAddr : String
  toAddr : String
  nonce : ℕ
  gasLimit : String
  gasPrice : String
  chainId : ℕ
  signedAt : ℤ
deriving DecidableEq

structure PaymentOrder where
  id : String
  userId : String
  chatId : String
  status : PaymentStatus
  quote : PaymentQuote
  signature : Option TransactionSignature := none
  txHash : Option String := none
  settlementId : Option String := none
  error : Option String := none
  createdAt : ℤ
  updatedAt : ℤ
  completedAt : Option ℤ := none
deriving DecidableEq

structure SettlementResult where
  success : Bool
  settlementId : Option String := none
  error : Option String := none
deriving DecidableEq

/-! ### In-memory stores (JS `Map`s keyed by id) -/

def storeGet {α : Type} (s : List (String × α)) (k : String) : Option α :=
  (s.find? (fun e => e.1 == k)).map (fun e => e.2)

def storeSet {α : Type} (s : List (String × α)) (k : String) (v : α) :
    List (String × α) :=
  if s.any (fun e => e.1 == k) then s.map (fun e => if e.1 == k then (k, v) else e)
  else s ++ [(k, v)]

def storeDelete {α : Type} (s : List (String × α)) (k : String) : List (String × α) :=
  s.filter (fun e => e.1 != k)

/-! ### `confirmPayment` (`tools/confirm-pay.ts`) -/

/-- The awaited results of the external service calls made on one
`confirmPayment` run. -/
structure ConfirmOracle where
  balance : ℚ
  signature : TransactionSignature
  txHash : String
  confirmed : Bool
  settlement : SettlementResult

structure ConfirmOutcome where
  success : Bool
  order : Option PaymentOrder := none
  txHash : Option String := none
  error : Option String := none
  quoteStore : List (String × PaymentQuote)
  orderStore : List (String × PaymentOrder)
  /-- The order statuses written to the order store, in write order. -/
  writes : List PaymentStatus

def MSG_QUOTE_NOT_FOUND : String := "Quote not found. Please scan the QR code again."

def MSG_QUOTE_EXPIRED : String := "Quote has expired. Please get a new quote."

def MSG_TX_NOT_CONFIRMED : String := "Transaction failed to confirm"

def MSG_SETTLEMENT_FAILED : String := "Settlement failed"

/-- `Insufficient balance. Required: … , Available: …`.  `toString` stands in
for JS number rendering; no claim depends on this text. -/
def insufficientMsg (required balance : ℚ) (token : SupportedToken) : String :=
  "Insufficient balance. Required: " ++ toString required ++ " " ++ tokenName token
    ++ ", Available: " ++ toString balance ++ " " ++ tokenName token

/-- `confirmPayment(params)`: quote lookup, expiry check, order creation at
`QUOTED`, balance check, sign, broadcast, confirmation wait, settlement.
`now` stands for `Date.now()`, `newOrderId` for `uuidv4()`. -/
def confirmPayment (quoteStore : List (String × PaymentQuote))
    (orderStore : List (String × PaymentOrder))
    (quoteId userId chatId newOrderId : String) (now : ℤ) (o : ConfirmOracle) :
    ConfirmOutcome :=
  match storeGet quoteStore quoteId with
  | none =>
    { success := false, error := some MSG_QUOTE_NOT_FOUND,
      quoteStore := quoteStore, orderStore := orderStore, writes := [] }
  | some quote =>
    if now > quote.expiresAt then
      { success := false, error := some MSG_QUOTE_EXPIRED,
        quoteStore := quoteStore, orderStore := orderStore, writes := [] }
    else
      let order0 : PaymentOrder :=
        { id := newOrderId, userId := userId, chatId := chatId, status := .quoted,
          quote := quote, createdAt := now, updatedAt := now }
      let os1 := storeSet orderStore newOrderId order0
      if o.balance < quote.amountCrypto then
        let order1 := { order0 with
                        status := .failed,
                        error := some (insufficientMsg quote.amountCrypto o.balance quote.token),
                        updatedAt := now }
        { success := false, order := some order1, error := order1.error,
          quoteStore := quoteStore, orderStore := storeSet os1 newOrderId order1,
          writes := [.quoted, .failed] }
      else
        let order2 := { order0 with status := .signed, updatedAt := now }
        let os2 := storeSet os1 newOrderId order2
        let order3 := { order2 with signature := some o.signature, updatedAt := now }
        let os3 := storeSet os2 newOrderId order3
        let order4 := { order3 with status := .pending, updatedAt := now }
        let os4 := storeSet os3 newOrderId order4
        let order5 := { order4 with txHash := some o.txHash, updatedAt := now }
        let os5 := storeSet os4 newOrderId order5
        if !o.confirmed then
          let order6 := { order5 with
                          status := .failed,
                          error := some MSG_TX_NOT_CONFIRMED, updatedAt := now }
          { success := false, order := some order6, txHash := some o.txHash,
            error := order6.error, quoteStore := quoteStore,
            orderStore := storeSet os5 newOrderId order6,
            writes := [.quoted, .signed, .signed, .pending, .pending, .failed] }
        else
          let order6 := { order5 with status := .settled, updatedAt := now }
          let os6 := storeSet os5 newOrderId order6
          if !o.settlement.success then
            let order7 := { order6 with
                            status := .failed,
                            error := some (o.settlement.error.getD MSG_SETTLEMENT_FAILED),
                            updatedAt := now }
            { success := false, order := some order7, txHash := some o.txHash,
              error := order7.error, quoteStore := quoteStore,
              orderStore := storeSet os6 newOrderId order7,
              writes :=
                [.quoted, .signed, .signed, .pending, .pending, .settled, .failed] }
          else
            let order7 := { order6 with
                            status := .completed,
                            settlementId := o.settlement.settlementId,
                            completedAt := some now,
                            updatedAt := now }
            { success := true, order := some order7, txHash := some o.txHash,
              quoteStore := storeDelete quoteStore quoteId,
              orderStore := storeSet os6 newOrderId order7,
              writes :=
                [.quoted, .signed, .signed, .pending, .pending, .settled, .completed] }

/-! ### Offline queue (`offline/queue.ts`) -/

structure RetryConfig where
  maxRetries : ℕ
  initialDelay : ℕ
  maxDelay : ℕ
  backoffMultiplier : ℕ

def RETRY_CONFIG : RetryConfig :=
  { maxRetries := 5, initialDelay := 5000, maxDelay := 300000, backoffMultiplier := 2 }

structure OfflineQueueItem where
  id : String
  order : PaymentOrder
  signature : TransactionSignature
  retryCount : ℕ
  lastRetry : Option ℤ := none
  nextRetry : Option ℤ := none
  createdAt : ℤ
deriving DecidableEq

/-- What `scheduleRetry` did: either the order was marked `FAILED` and the item
dequeued, or `updateRetry(id, retryCount, nextRetry)` was called. -/
inductive RetryEffect
  | failedAndDequeued (order : PaymentOrder)
  | scheduled (retryCount : ℕ) (nextRetry : ℤ)
deriving DecidableEq

def MSG_MAX_RETRIES : String := "Max retries exceeded: "

/-- `OfflineQueueManager.scheduleRetry(item, reason)`. -/
def OfflineQueueManager.scheduleRetry (item : OfflineQueueItem) (reason : String)
    (now : ℤ) : RetryEffect :=
  let rc := item.retryCount + 1
  if rc ≥ RETRY_CONFIG.maxRetries then
    .failedAndDequeued { item.order with
                         status := .failed,
                         error := some (MSG_MAX_RETRIES ++ reason), updatedAt := now }
  else
    let delay :=
      min (RETRY_CONFIG.initialDelay * RETRY_CONFIG.backoffMultiplier ^ (rc - 1))
        RETRY_CONFIG.maxDelay
    .scheduled rc (now + (delay : ℤ))

/-- The awaited results of the external calls made by one `processItem` run.
`broadcastResult = .error msg` models `broadcastTransaction` throwing (the
`catch` branch). -/
structure ProcessOracle where
  broadcastResult : Except String String
  confirmed : Bool
  settlement : SettlementResult

structure ProcessOutcome where
  order : PaymentOrder
  /-- The order statuses written to the order store, in write order. -/
  writes : List PaymentStatus
  dequeued : Bool
  retryUpdate : Option (ℕ × ℤ) := none

/-- `OfflineQueueManager.processItem(item)`: mark the order `PENDING`,
broadcast, record the hash, wait for confirmation, settle; on success complete
and dequeue, otherwise `scheduleRetry`. -/
def OfflineQueueManager.processItem (item : OfflineQueueItem) (now : ℤ)
    (o : ProcessOracle) : ProcessOutcome :=
  let order1 := { item.order with status := .pending, updatedAt := now }
  let item1 := { item with order := order1 }
  match o.broadcastResult with
  | .error msg =>
    match OfflineQueueManager.scheduleRetry item1 msg now with
    | .failedAndDequeued ord =>
      { order := ord, writes := [.pending, .failed], dequeued := true }
    | .scheduled rc nr =>
      { order := order1, writes := [.pending], dequeued := false,
        retryUpdate := some (rc, nr) }
  | .ok txHash =>
    let order2 := { order1 with txHash := some txHash }
    let item2 := { item1 with order := order2 }
    if o.confirmed then
      if o.settlement.success then
        let order3 := { order2 with
                        status := .completed,
                        settlementId := o.settlement.settlementId,
                        completedAt := some now,
                        updatedAt := now }
        { order := order3, writes := [.pending, .pending, .completed], dequeued := true }
      else
        match OfflineQueueManager.scheduleRetry item2 MSG_SETTLEMENT_FAILED now with
        | .failedAndDequeued ord =>
          { order := ord, writes := [.pending, .pending, .failed], dequeued := true }
        | .scheduled rc nr =>
          { order := order2, writes := [.pending, .pending], dequeued := false,
            retryUpdate := some (rc, nr) }
    else
      match OfflineQueueManager.scheduleRetry item2 MSG_TX_NOT_CONFIRMED now with
      | .failedAndDequeued ord =>
        { order := ord, writes := [.pending, .pending, .failed], dequeued := true }
      | .scheduled rc nr =>
        { order := order2, writes := [.pending, .pending], dequeued := false,
          retryUpdate := some (rc, nr) }

/-! ### Network status detector (`offline/sync.ts`) -/

inductive NetworkStatus
  | online
  | weak
  | offline
  | syncing
deriving DecidableEq

structure DetectorState where
  endpoints : List String
  status : NetworkStatus
  /-- Subscriber handles in registration order (the JS `Set` of listeners). -/
  listeners : List ℕ
deriving DecidableEq

def DETECTOR_ENDPOINTS : List String :=
  ["https://bsc-dataseed.binance.org",
   "https://bsc-dataseed1.binance.org",
   "https://api.coingecko.com/api/v3/ping"]

/-- The aggregation block of `NetworkStatusDetector.check()`: count fulfilled
probes, average their latencies (`successCount || 1` in the divisor), and
classify. -/
def aggregateStatus (endpoints : List String) (probe : String → Option ℚ) :
    NetworkStatus :=
  let results := endpoints.map probe
  let fulfilled := results.filterMap (fun r => r)
  let successCount := fulfilled.length
  let avgLatency : ℚ :=
    fulfilled.sum / (if successCount = 0 then 1 else (successCount : ℚ))
  if successCount = 0 then NetworkStatus.offline
  else if (successCount : ℚ) < (endpoints.length : ℚ) / 2 ∨ avgLatency > 2000 then
    NetworkStatus.weak
  else NetworkStatus.online

/-- `NetworkStatusDetector.check()`.  `probe e = some l` is a fulfilled
`pingEndpoint` promise with latency `l`; `none` is a rejected one.  Returns the
updated state and the calls made to listeners: each listener receives the new
status (and only the new status). -/
def NetworkStatusDetector.check (st : DetectorState) (probe : String → Option ℚ) :
    DetectorState × List (ℕ × NetworkStatus) :=
  let newStatus := aggregateStatus st.endpoints probe
  if newStatus ≠ st.status then
    ({ st with status := newStatus }, st.listeners.map (fun l => (l, newStatus)))
  else (st, [])

/-- `NetworkStatusDetector.onStatusChange(listener)`: add to the listener set. -/
def NetworkStatusDetector.subscribe (st : DetectorState) (l : ℕ) : DetectorState :=
  if st.listeners.contains l then st else { st with listeners := st.listeners ++ [l] }

/-- The closure returned by `onStatusChange`: `() => this.listeners.delete(l)`. -/
def NetworkStatusDetector.unsubscribe (st : DetectorState) (l : ℕ) : DetectorState :=
  { st with listeners := st.listeners.filter (fun x => x ≠ l) }

/-! ### EIP-712 offline-payment verification (`services/blockchain.ts`) -/

structure Eip712Domain where
  name : String
  version : String
  chainId : ℕ
  verifyingContract : String
deriving DecidableEq

structure OfflinePaymentMessage where
  orderId : String
  token : String
  amount : ℤ
  recipient : String
  nonce : ℤ
  deadline : ℤ
deriving DecidableEq

structure SignedOfflinePayment where
  message : OfflinePaymentMessage
  signature : String
  signer : String
  domain : Eip712Domain
deriving DecidableEq

structure VerifyResult where
  valid : Bool
  signer : Option String
  error : Option String := none
deriving DecidableEq

def toLowerStr (s : String) : String := String.mk (s.data.map jsToLowerChar)

def MSG_AUTH_EXPIRED : String := "Payment authorization expired"

def signerMismatchMsg (expected got : String) : String :=
  "Signer mismatch: expected " ++ expected ++ ", got " ++ got

def sigFailMsg (m : String) : String := "Signature verification failed: " ++ m

/-- `verifyOfflinePayment(signedPayment)`.  `ethers.verifyTypedData` is the
secp256k1 recovery oracle `recoverTypedData` (`.error` models it throwing);
`nowMs` is `Date.now()`. -/
def verifyOfflinePayment
    (recoverTypedData : Eip712Domain → OfflinePaymentMessage → String → Except String String)
    (nowMs : ℤ) (signedPayment : SignedOfflinePayment) : VerifyResult :=
  if signedPayment.message.deadline < Int.fdiv nowMs 1000 then
    { valid := false, signer := none, error := some MSG_AUTH_EXPIRED }
  else
    match recoverTypedData signedPayment.domain signedPayment.message
        signedPayment.signature with
    | .error m => { valid := false, signer := none, error := some (sigFailMsg m) }
    | .ok recoveredAddress =>
      if toLowerStr recoveredAddress ≠ toLowerStr signedPayment.signer then
        { valid := false, signer := some recoveredAddress,
          error := some (signerMismatchMsg signedPayment.signer recoveredAddress) }
      else { valid := true, signer := some recoveredAddress }

/-! ### Supporting lemmas: parsing a well-formed TLV stream -/

/-- Serialize a record list into a TLV stream (tag, two length digits, value
per record) — the shape `generatePromptPayPayload` emits. -/
def tlvEncode (recs : TLVEntries) : List Char :=
  recs.foldr (fun r acc => r.1 ++ lenDigits2 r.2.length ++ r.2 ++ acc) []

/-! ### An input on which the TLV loop never terminates -/

/-- At position 0 this input reads tag `"ab"` and length field `"-4"`; the
position advances by 2+2 and then by −4, returning to 0 forever. -/
def badTLVInput : List Char := "ab-4aaaaaaaaaaaaaaaa".toList

/-! ### Sample data used by witnesses and counterexamples -/

def samplePromptPay : PromptPayData :=
  { accountId := "0812345678".toList, accountType := .phone, merchantName := none,
    amount := some (some 150), currency := "764".toList, country := "TH".toList,
    rawPayload := [], isValid := true }

def sampleRate : ExchangeRate :=
  { token := .USDT, fiat := "THB", rate := 71 / 2, source := "mock", timestamp := 0,
    validUntil := 300000 }

def sampleQuote : PaymentQuote :=
  MockExchangeService.createQuote 150 .USDT samplePromptPay sampleRate 0 "q1"

def sampleSignature : TransactionSignature :=
  { signedTx := "0xsigned", fromAddr := "0xfrom", toAddr := "0xto", nonce := 0,
    gasLimit := "100000", gasPrice := "5000000000", chainId := 56, signedAt := 0 }

def sampleOracleOk : ConfirmOracle :=
  { balance := 1000, signature := sampleSignature, txHash := "0xhash", confirmed := true,
    settlement := { success := true, settlementId := some "s1" } }

def lowBalanceOracle : ConfirmOracle :=
  { balance := 0, signature := sampleSignature, txHash := "0xhash", confirmed := true,
    settlement := { success := true, settlementId := some "s1" } }

def sampleOrderSigned : PaymentOrder :=
  { id := "o1", userId := "u", chatId := "c", status := .signed, quote := sampleQuote,
    createdAt := 0, updatedAt := 0 }

def sampleItem (rc : ℕ) : OfflineQueueItem :=
  { id := "item1", order := sampleOrderSigned, signature := sampleSignature,
    retryCount := rc, createdAt := 0 }

def sampleProcessOk : ProcessOracle :=
  { broadcastResult := .ok "0xhash", confirmed := true,
    settlement := { success := true, settlementId := some "s1" } }

def sampleRecover : Eip712Domain → OfflinePaymentMessage → String → Except String String :=
  fun _ _ _ => .ok "0xAB"

def sampleSignedPayment : SignedOfflinePayment :=
  { message := { orderId := "o1", token := "USDT", amount := 1000, recipient := "0xto",
                 nonce := 1, deadline := 100 },
    signature := "0xsig", signer := "0xab",
    domain := { name := "BoonLink Payment", version := "1", chainId := 56,
                verifyingContract := "0x0000000000000000000000000000000000000000" } }

/-! ### C9 — network-status change notification -/

def probeDead : String → Option ℚ := fun _ => none

def detectorOnline : DetectorState :=
  { endpoints := DETECTOR_ENDPOINTS, status := .online, listeners := [0] }

def detectorWeak : DetectorState :=
  { endpoints := DETECTOR_ENDPOINTS, status := .weak, listeners := [0] }

/-- The character set a CRC hex string draws from. -/
def hexUpperChars : List Char := "0123456789ABCDEF".toList

/-- The formatted identifier the generator embeds in the phone sub-field. -/
def genFormattedId (accountId : List Char) : List Char :=
  if accountId.length ≤ 10 then
    COUNTRY_PHONE_PREFIX ++ (if accountId.take 1 = ['0'] then accountId.drop 1 else accountId)
  else NATIONAL_ID_PREFIX ++ accountId

/-- The merchant-account-info sub-TLV the generator emits. -/
def genMerchantInfo (accountId : List Char) : List Char :=
  tlvEncode [(SUBTAG_AID, PROMPTPAY_AID), (SUBTAG_PHONE, genFormattedId accountId)]

/-- The payload before the CRC hex is appended (the generator's `p1`). -/
def genP1 (accountId : List Char) (amount : Option ℚ) : List Char :=
  let isPhone := accountId.length ≤ 10
  let formattedId :=
    if isPhone then
      COUNTRY_PHONE_PREFIX ++ (if accountId.take 1 = ['0'] then accountId.drop 1 else accountId)
    else NATIONAL_ID_PREFIX ++ accountId
  let aidField := SUBTAG_AID ++ lenDigits2 PROMPTPAY_AID.length ++ PROMPTPAY_AID
  let idField := SUBTAG_PHONE ++ lenDigits2 formattedId.length ++ formattedId
  let merchantInfo := aidField ++ idField
  let merchantInfoField :=
    TAG_MERCHANT_ACCOUNT_INFO ++ lenDigits2 merchantInfo.length ++ merchantInfo
  let amtTruthy := match amount with
    | some a => decide (a ≠ 0)
    | none => false
  let amountField := match amount with
    | some a =>
      if a = 0 then [] else
        let s := toFixed2 a
        TAG_TRANSACTION_AMOUNT ++ lenDigits2 s.length ++ s
    | none => []
  FIELD_PAYLOAD_FORMAT
    ++ (if amtTruthy then FIELD_POI_DYNAMIC else FIELD_POI_STATIC)
    ++ merchantInfoField
    ++ FIELD_CURRENCY
    ++ amountField
    ++ FIELD_COUNTRY
    ++ FIELD_CRC_PLACEHOLDER

/-- TLV records of the generated payload before the CRC record, no amount. -/
def bodyNone (id : List Char) : TLVEntries :=
  [(TAG_PAYLOAD_FORMAT, PAYLOAD_FORMAT_01),
   (TAG_POI_METHOD, "11".toList),
   (TAG_MERCHANT_ACCOUNT_INFO, genMerchantInfo id),
   (TAG_TRANSACTION_CURRENCY, DEFAULT_CURRENCY),
   (TAG_COUNTRY_CODE, DEFAULT_COUNTRY)]

/-- TLV records of the generated payload before the CRC record, with amount. -/
def bodyAmt (id : List Char) (a : ℚ) : TLVEntries :=
  [(TAG_PAYLOAD_FORMAT, PAYLOAD_FORMAT_01),
   (TAG_POI_METHOD, "12".toList),
   (TAG_MERCHANT_ACCOUNT_INFO, genMerchantInfo id),
   (TAG_TRANSACTION_CURRENCY, DEFAULT_CURRENCY),
   (TAG_TRANSACTION_AMOUNT, toFixed2 a),
   (TAG_COUNTRY_CODE, DEFAULT_COUNTRY)]

/-! ### C2 — account-identifier normalization -/

/-- A merchant-account-info sub-TLV whose PromptPay identifier has length 5. -/
def shortIdMerchantInfo : List Char :=
  tlvEncode [(SUBTAG_AID, PROMPTPAY_AID), (SUBTAG_PHONE, "12345".toList)]

/-- A full payload carrying `shortIdMerchantInfo` (no CRC record). -/
def shortIdPayload : List Char :=
  tlvEncode [(TAG_PAYLOAD_FORMAT, PAYLOAD_FORMAT_01),
             (TAG_MERCHANT_ACCOUNT_INFO, shortIdMerchantInfo)]

/-! ### Supporting lemmas: character classes and decimal rendering -/

lemma isDigitChar_range {c : Char} (h : isDigitChar c = true) :
    48 ≤ c.toNat ∧ c.toNat ≤ 57 := by
  unfold isDigitChar at h
  simp only [Bool.and_eq_true, decide_eq_true_eq] at h
  exact h

lemma not_ws_of_range {c : Char} (h1 : 46 ≤ c.toNat) (h2 : c.toNat ≤ 90) :
    isJsWhitespace c = false := by
  by_contra hws
  rw [Bool.not_eq_false] at hws
  simp only [isJsWhitespace, Bool.or_eq_true, beq_iff_eq, or_assoc] at hws
  rcases hws with rfl | rfl | rfl | rfl | rfl | rfl | rfl | rfl | rfl | rfl <;>
    first
      | exact absurd h1 (by decide)
      | exact absurd h2 (by decide)

lemma isDigitChar_digitChar (n : Nat) : isDigitChar (digitChar n) = true := by
  unfold digitChar; split <;> decide

lemma digitVal_digitChar {n : Nat} (h : n < 10) : digitVal (digitChar n) = n := by
  interval_cases n <;> decide

lemma natToDecGo_congr : ∀ fuel₁ fuel₂ n, n ≤ fuel₁ → n ≤ fuel₂ →
    natToDecGo fuel₁ n = natToDecGo fuel₂ n := by
  intro fuel₁
  induction fuel₁ with
  | zero =>
    intro fuel₂ n h1 _
    have hn : n = 0 := by omega
    subst hn
    rcases fuel₂ with _ | f
    · rfl
    · rfl
  | succ f ih =>
    intro fuel₂ n h1 h2
    rcases fuel₂ with _ | g
    · have hn : n = 0 := by omega
      subst hn
      rfl
    · show (if n < 10 then [digitChar n] else natToDecGo f (n / 10) ++ [digitChar (n % 10)])
        = (if n < 10 then [digitChar n] else natToDecGo g (n / 10) ++ [digitChar (n % 10)])
      by_cases h : n < 10
      · rw [if_pos h, if_pos h]
      · rw [if_neg h, if_neg h, ih g (n / 10) (by omega) (by omega)]

/-- The recurrence `natToDec` satisfies (the shape of `Number.toString`). -/
lemma natToDec_rec (n : Nat) : natToDec n
    = if n < 10 then [digitChar n] else natToDec (n / 10) ++ [digitChar (n % 10)] := by
  unfold natToDec
  rcases n with _ | m
  · rfl
  · show (if m + 1 < 10 then [digitChar (m + 1)]
        else natToDecGo m ((m + 1) / 10) ++ [digitChar ((m + 1) % 10)]) = _
    by_cases h : m + 1 < 10
    · rw [if_pos h, if_pos h]
    · rw [if_neg h, if_neg h,
        natToDecGo_congr m ((m + 1) / 10) ((m + 1) / 10) (by omega) (by omega)]

lemma natToHexUpperGo_congr : ∀ fuel₁ fuel₂ n, n ≤ fuel₁ → n ≤ fuel₂ →
    natToHexUpperGo fuel₁ n = natToHexUpperGo fuel₂ n := by
  intro fuel₁
  induction fuel₁ with
  | zero =>
    intro fuel₂ n h1 _
    have hn : n = 0 := by omega
    subst hn
    rcases fuel₂ with _ | f
    · rfl
    · rfl
  | succ f ih =>
    intro fuel₂ n h1 h2
    rcases fuel₂ with _ | g
    · have hn : n = 0 := by omega
      subst hn
      rfl
    · show (if n < 16 then [hexDigitUpper n]
          else natToHexUpperGo f (n / 16) ++ [hexDigitUpper (n % 16)])
        = (if n < 16 then [hexDigitUpper n]
          else natToHexUpperGo g (n / 16) ++ [hexDigitUpper (n % 16)])
      by_cases h : n < 16
      · rw [if_pos h, if_pos h]
      · rw [if_neg h, if_neg h, ih g (n / 16) (by omega) (by omega)]

/-- The recurrence `natToHexUpper` satisfies. -/
lemma natToHexUpper_rec (n : Nat) : natToHexUpper n
    = if n < 16 then [hexDigitUpper n]
      else natToHexUpper (n / 16) ++ [hexDigitUpper (n % 16)] := by
  unfold natToHexUpper
  rcases n with _ | m
  · rfl
  · show (if m + 1 < 16 then [hexDigitUpper (m + 1)]
        else natToHexUpperGo m ((m + 1) / 16) ++ [hexDigitUpper ((m + 1) % 16)]) = _
    by_cases h : m + 1 < 16
    · rw [if_pos h, if_pos h]
    · rw [if_neg h, if_neg h,
        natToHexUpperGo_congr m ((m + 1) / 16) ((m + 1) / 16) (by omega) (by omega)]

lemma natToDec_ne_nil (n : Nat) : natToDec n ≠ [] := by
  rw [natToDec_rec]
  split
  · simp
  · simp

lemma natToDec_digits (n : Nat) : ∀ c ∈ natToDec n, isDigitChar c = true := by
  induction n using Nat.strong_induction_on with
  | _ n ih =>
    rcases Nat.lt_or_ge n 10 with h | h
    · rw [natToDec_rec, if_pos h]
      intro c hc
      rw [List.mem_singleton] at hc
      subst hc
      exact isDigitChar_digitChar n
    · rw [natToDec_rec, if_neg (by omega : ¬ n < 10)]
      intro c hc
      rw [List.mem_append] at hc
      rcases hc with hc | hc
      · exact ih (n / 10) (Nat.div_lt_self (by omega) (by omega)) c hc
      · rw [List.mem_singleton] at hc
        subst hc
        exact isDigitChar_digitChar _

lemma natToDec_length_le (n : Nat) : ∀ (k : Nat), 1 ≤ k → n < 10 ^ k →
    (natToDec n).length ≤ k := by
  induction n using Nat.strong_induction_on with
  | _ n ih =>
    intro k hk h
    rcases Nat.lt_or_ge n 10 with hn | hn
    · rw [natToDec_rec, if_pos hn]
      simpa using hk
    · rw [natToDec_rec, if_neg (by omega : ¬ n < 10)]
      rw [List.length_append, List.length_singleton]
      have hk1 : 1 ≤ k - 1 := by
        rcases Nat.lt_or_ge k 2 with hk2 | hk2
        · exfalso
          have hke : k = 1 := by omega
          rw [hke, pow_one] at h
          omega
        · omega
      have hdiv : n / 10 < 10 ^ (k - 1) := by
        rw [Nat.div_lt_iff_lt_mul (by omega)]
        calc n < 10 ^ k := h
          _ = 10 ^ (k - 1) * 10 := by
            rw [← pow_succ]
            congr 1
            omega
      have := ih (n / 10) (Nat.div_lt_self (by omega) (by omega)) (k - 1) hk1 hdiv
      omega

lemma decToNat_append_singleton (a : List Char) (c : Char) :
    decToNat (a ++ [c]) = 10 * decToNat a + digitVal c := by
  unfold decToNat
  rw [List.foldl_append]
  rfl

lemma decToNat_natToDec (n : Nat) : decToNat (natToDec n) = n := by
  induction n using Nat.strong_induction_on with
  | _ n ih =>
    rcases Nat.lt_or_ge n 10 with h | h
    · rw [natToDec_rec, if_pos h]
      show 10 * 0 + digitVal (digitChar n) = n
      rw [digitVal_digitChar h]
      omega
    · rw [natToDec_rec, if_neg (by omega : ¬ n < 10)]
      rw [decToNat_append_singleton, ih (n / 10) (Nat.div_lt_self (by omega) (by omega)),
        digitVal_digitChar (Nat.mod_lt _ (by omega))]
      omega

lemma decToNat_cons_zero (l : List Char) : decToNat ('0' :: l) = decToNat l := by
  unfold decToNat
  simp only [List.foldl_cons]
  congr 1

lemma decToNat_replicate_zero (k : Nat) (l : List Char) :
    decToNat (List.replicate k '0' ++ l) = decToNat l := by
  induction k with
  | zero => simp
  | succ k ih =>
    rw [List.replicate_succ, List.cons_append, decToNat_cons_zero, ih]

lemma lenDigits2_length {n : Nat} (h : n ≤ 99) : (lenDigits2 n).length = 2 := by
  unfold lenDigits2 padLeft
  rw [List.length_append, List.length_replicate]
  have h1 : 0 < (natToDec n).length := List.length_pos.mpr (natToDec_ne_nil n)
  have h2 : (natToDec n).length ≤ 2 := natToDec_length_le n 2 (by omega) (by omega)
  omega

lemma lenDigits2_digits {n : Nat} : ∀ c ∈ lenDigits2 n, isDigitChar c = true := by
  unfold lenDigits2 padLeft
  intro c hc
  rw [List.mem_append] at hc
  rcases hc with hc | hc
  · rw [List.mem_replicate] at hc
    rw [hc.2]
    decide
  · exact natToDec_digits n c hc

lemma decToNat_lenDigits2 (n : Nat) : decToNat (lenDigits2 n) = n := by
  unfold lenDigits2 padLeft
  rw [decToNat_replicate_zero, decToNat_natToDec]

lemma takeWhile_append_of_all {p : Char → Bool} {A : List Char} (B : List Char)
    (h : ∀ a ∈ A, p a = true) :
    List.takeWhile p (A ++ B) = A ++ List.takeWhile p B := by
  induction A with
  | nil => simp
  | cons a A ih =>
    rw [List.cons_append, List.takeWhile_cons, h a (by simp), if_pos rfl,
      ih (fun x hx => h x (by simp [hx]))]
    simp

lemma dropWhile_append_of_all {p : Char → Bool} {A : List Char} (B : List Char)
    (h : ∀ a ∈ A, p a = true) :
    List.dropWhile p (A ++ B) = List.dropWhile p B := by
  induction A with
  | nil => simp
  | cons a A ih =>
    rw [List.cons_append, List.dropWhile_cons, h a (by simp), if_pos rfl]
    exact ih (fun x hx => h x (by simp [hx]))

lemma takeWhile_eq_self_of_all {p : Char → Bool} {A : List Char}
    (h : ∀ a ∈ A, p a = true) : List.takeWhile p A = A := by
  have := takeWhile_append_of_all (p := p) [] h
  simpa using this

lemma dropWhile_eq_nil_of_all {p : Char → Bool} {A : List Char}
    (h : ∀ a ∈ A, p a = true) : List.dropWhile p A = [] := by
  have := dropWhile_append_of_all (p := p) [] h
  simpa using this

lemma jsParseInt_digits {l : List Char} (h0 : l ≠ [])
    (hd : ∀ c ∈ l, isDigitChar c = true) :
    jsParseInt l = some ((decToNat l : Nat) : Int) := by
  have hws : l.dropWhile isJsWhitespace = l := by
    cases l with
    | nil => simp
    | cons c r =>
      rw [List.dropWhile_cons]
      have hc := isDigitChar_range (hd c (by simp))
      rw [not_ws_of_range (by omega) (by omega)]
      simp
  have hpd : parseDigitsVal l = some (decToNat l) := by
    unfold parseDigitsVal
    rw [takeWhile_eq_self_of_all hd]
    simp [h0]
  unfold jsParseInt
  rw [hws]
  cases l with
  | nil => exact absurd rfl h0
  | cons c r =>
    have hc := isDigitChar_range (hd c (by simp))
    have hcm : ¬ c = '-' := by
      intro e
      rw [e] at hc
      exact absurd hc.1 (by decide)
    have hcp : ¬ c = '+' := by
      intro e
      rw [e] at hc
      exact absurd hc.1 (by decide)
    show (if c = '-' then (parseDigitsVal r).map (fun n : Nat => -(n : Int))
      else if c = '+' then (parseDigitsVal r).map (fun n : Nat => (n : Int))
      else (parseDigitsVal (c :: r)).map (fun n : Nat => (n : Int))) = _
    rw [if_neg hcm, if_neg hcp, hpd]
    rfl

lemma mapNatCast_nonneg {x : Option Nat} {n : Int}
    (hx : x.map (fun k : Nat => (k : Int)) = some n) : 0 ≤ n := by
  rcases x with _ | m
  · simp at hx
  · simp only [Option.map_some', Option.some.injEq] at hx
    rw [← hx]
    exact Int.natCast_nonneg m

lemma jsParseInt_nonneg {l : List Char} (h : ∀ c ∈ l, ¬ c = '-') :
    ∀ n, jsParseInt l = some n → 0 ≤ n := by
  intro n hn
  unfold jsParseInt at hn
  split at hn
  · exact absurd hn (by simp)
  · rename_i c r heq
    have hcm : ¬ c = '-' := by
      intro e
      apply h '-' _ rfl
      have hm : '-' ∈ l.dropWhile isJsWhitespace := by
        rw [heq, ← e]
        simp
      exact List.Sublist.mem hm (List.dropWhile_sublist _)
    rw [if_neg hcm] at hn
    by_cases hcp : c = '+'
    · rw [if_pos hcp] at hn
      exact mapNatCast_nonneg hn
    · rw [if_neg hcp] at hn
      exact mapNatCast_nonneg hn

/-! ### Supporting lemmas: `jsSubstring` -/

lemma jsSubstring_append_left (pre s : List Char) (k : Nat) :
    jsSubstring (pre ++ s) (pre.length : Int) ((pre.length : Int) + (k : Int)) = s.take k := by
  unfold jsSubstring jsClamp
  rw [List.length_append]
  have e1 : (max 0 (min (pre.length : Int) ((pre.length + s.length : Nat) : Int))).toNat
      = pre.length := by
    push_cast
    omega
  have e2 : (max 0 (min ((pre.length : Int) + (k : Int)) ((pre.length + s.length : Nat) : Int))).toNat
      = pre.length + min k s.length := by
    push_cast
    omega
  rw [e1, e2]
  have e3 : min pre.length (pre.length + min k s.length) = pre.length := by omega
  have e4 : max pre.length (pre.length + min k s.length) = pre.length + min k s.length := by
    omega
  rw [e3, e4, List.drop_left]
  have e5 : pre.length + min k s.length - pre.length = min k s.length := by omega
  rw [e5]
  rcases le_total k s.length with hks | hks
  · rw [min_eq_left hks]
  · rw [min_eq_right hks, List.take_length, List.take_of_length_le hks]

lemma jsSubstring_zero (s : List Char) (k : Nat) :
    jsSubstring s 0 (k : Int) = s.take k := by
  have := jsSubstring_append_left [] s k
  simpa using this

lemma mem_of_mem_jsSubstring {data : List Char} {a b : Int} {c : Char}
    (h : c ∈ jsSubstring data a b) : c ∈ data := by
  unfold jsSubstring at h
  exact List.mem_of_mem_drop (List.mem_of_mem_take h)

lemma jsSubstring_length_le (data : List Char) (a b : Int) :
    (jsSubstring data a b).length ≤ data.length := by
  unfold jsSubstring
  simp only [List.length_take, List.length_drop]
  omega

lemma jsSubstring_seg (pre s : List Char) (a b : Int) (k : Nat)
    (ha : a = (pre.length : Int)) (hb : b = a + (k : Int)) :
    jsSubstring (pre ++ s) a b = s.take k := by
  subst hb
  subst ha
  exact jsSubstring_append_left pre s k

lemma tlvEncode_cons (t v : List Char) (rest : TLVEntries) :
    tlvEncode ((t, v) :: rest) = t ++ lenDigits2 v.length ++ v ++ tlvEncode rest := rfl

lemma tlvEncode_nil : tlvEncode [] = [] := rfl

lemma parseTLVGo_zero (data : List Char) (pos : Int) (acc : TLVEntries) :
    parseTLVGo data 0 pos acc = none := rfl

lemma parseTLVGo_succ (data : List Char) (fuel : Nat) (pos : Int) (acc : TLVEntries) :
    parseTLVGo data (fuel + 1) pos acc =
      if pos < (data.length : Int) then
        match jsParseInt (jsSubstring data (pos + 2) (pos + 4)) with
        | none =>
          some (tlvSet acc (jsSubstring data pos (pos + 2)) (jsSubstring data (pos + 4) 0))
        | some len =>
          parseTLVGo data fuel (pos + 4 + len)
            (tlvSet acc (jsSubstring data pos (pos + 2))
              (jsSubstring data (pos + 4) (pos + 4 + len)))
      else some acc := rfl

lemma parseTLVGo_encode (recs : TLVEntries) :
    ∀ (fuel : Nat) (pre : List Char) (acc : TLVEntries),
    recs.length < fuel →
    (∀ r ∈ recs, r.1.length = 2 ∧ r.2.length ≤ 99) →
    parseTLVGo (pre ++ tlvEncode recs) fuel (pre.length : Int) acc = some (acc ++ recs) := by
  induction recs with
  | nil =>
    intro fuel pre acc hfuel _
    rcases fuel with _ | fuel
    · omega
    · rw [tlvEncode_nil, List.append_nil, parseTLVGo_succ, if_neg (lt_irrefl _),
        List.append_nil]
  | cons r rest ih =>
    intro fuel pre acc hfuel hrec
    obtain ⟨t, v⟩ := r
    rcases fuel with _ | fuel
    · exact absurd hfuel (by omega)
    · have ht : t.length = 2 := (hrec (t, v) (by simp)).1
      have hv : v.length ≤ 99 := (hrec (t, v) (by simp)).2
      have hld : (lenDigits2 v.length).length = 2 := lenDigits2_length hv
      rw [tlvEncode_cons]
      rw [parseTLVGo_succ]
      have hassoc : pre ++ (t ++ lenDigits2 v.length ++ v ++ tlvEncode rest)
          = pre ++ (t ++ (lenDigits2 v.length ++ (v ++ tlvEncode rest))) := by
        simp [List.append_assoc]
      have hcond : (pre.length : Int)
          < ((pre ++ (t ++ lenDigits2 v.length ++ v ++ tlvEncode rest)).length : Int) := by
        simp only [List.length_append]
        push_cast
        omega
      rw [if_pos hcond]
      have htag : jsSubstring (pre ++ (t ++ lenDigits2 v.length ++ v ++ tlvEncode rest))
          (pre.length : Int) ((pre.length : Int) + 2) = t := by
        rw [hassoc, jsSubstring_seg pre _ _ _ 2 rfl (by push_cast; ring)]
        rw [← ht, List.take_left]
      have hlen : jsSubstring (pre ++ (t ++ lenDigits2 v.length ++ v ++ tlvEncode rest))
          ((pre.length : Int) + 2) ((pre.length : Int) + 4) = lenDigits2 v.length := by
        have hd2 : pre ++ (t ++ lenDigits2 v.length ++ v ++ tlvEncode rest)
            = (pre ++ t) ++ (lenDigits2 v.length ++ (v ++ tlvEncode rest)) := by
          simp [List.append_assoc]
        rw [hd2, jsSubstring_seg (pre ++ t) _ _ _ 2
          (by simp only [List.length_append, ht]; push_cast; ring) (by push_cast; ring)]
        rw [← hld, List.take_left]
      have hparse : jsParseInt (lenDigits2 v.length) = some ((v.length : Nat) : Int) := by
        rw [jsParseInt_digits (by rw [← List.length_pos, hld]; omega) lenDigits2_digits,
          decToNat_lenDigits2]
      rw [htag, hlen, hparse]
      have hval : jsSubstring (pre ++ (t ++ lenDigits2 v.length ++ v ++ tlvEncode rest))
          ((pre.length : Int) + 4) ((pre.length : Int) + 4 + (v.length : Int))
          = v := by
        have hd3 : pre ++ (t ++ lenDigits2 v.length ++ v ++ tlvEncode rest)
            = ((pre ++ t) ++ lenDigits2 v.length) ++ (v ++ tlvEncode rest) := by
          simp [List.append_assoc]
        rw [hd3, jsSubstring_seg ((pre ++ t) ++ lenDigits2 v.length) _ _ _ v.length
          (by simp only [List.length_append, ht, hld]; push_cast; ring) (by ring)]
        rw [List.take_left']
        rfl
      show parseTLVGo (pre ++ (t ++ lenDigits2 v.length ++ v ++ tlvEncode rest)) fuel
        ((pre.length : Int) + 4 + (v.length : Int))
        (tlvSet acc t (jsSubstring (pre ++ (t ++ lenDigits2 v.length ++ v ++ tlvEncode rest))
          ((pre.length : Int) + 4) ((pre.length : Int) + 4 + (v.length : Int))))
        = some (acc ++ (t, v) :: rest)
      rw [hval]
      have hd4 : pre ++ (t ++ lenDigits2 v.length ++ v ++ tlvEncode rest)
          = (((pre ++ t) ++ lenDigits2 v.length) ++ v) ++ tlvEncode rest := by
        simp [List.append_assoc]
      have hpos : (pre.length : Int) + 4 + (v.length : Int)
          = (((((pre ++ t) ++ lenDigits2 v.length) ++ v).length : Nat) : Int) := by
        simp only [List.length_append, ht, hld]
        push_cast
        ring
      rw [hd4, hpos, ih fuel _ (tlvSet acc t v) (by simpa using hfuel)
        (fun x hx => hrec x (by simp [hx]))]
      unfold tlvSet
      simp

lemma parseTLV_encode (recs : TLVEntries) (fuel : Nat) (hf : recs.length < fuel)
    (hr : ∀ r ∈ recs, r.1.length = 2 ∧ r.2.length ≤ 99) :
    parseTLV (tlvEncode recs) fuel = some recs := by
  have h := parseTLVGo_encode recs fuel [] [] hf hr
  simpa [parseTLV] using h

/-! ### Termination of the TLV loop on inputs without negative length fields -/

lemma parseTLVGo_isSome (data : List Char) (hminus : ∀ c ∈ data, ¬ c = '-') :
    ∀ (fuel : Nat) (pos : Int) (acc : TLVEntries), 1 ≤ fuel →
    (data.length : Int) + 4 ≤ pos + 4 * (fuel : Int) →
    (parseTLVGo data fuel pos acc).isSome = true := by
  intro fuel
  induction fuel with
  | zero =>
    intro pos acc h1 _
    omega
  | succ fuel ih =>
    intro pos acc _ hbound
    rw [parseTLVGo_succ]
    by_cases hcond : pos < (data.length : Int)
    · rw [if_pos hcond]
      rcases hp : jsParseInt (jsSubstring data (pos + 2) (pos + 4)) with _ | len
      · simp
      · have hlen0 : 0 ≤ len := by
          refine jsParseInt_nonneg ?_ len hp
          intro c hc
          exact hminus c (mem_of_mem_jsSubstring hc)
        show (parseTLVGo data fuel (pos + 4 + len) _).isSome = true
        push_cast at hbound
        refine ih (pos + 4 + len) _ (by omega) ?_
        omega
    · rw [if_neg hcond]
      simp

/-- Every value in a `parseTLV` result is a substring of the input: its
characters come from the input and it is no longer than the input. -/
lemma parseTLVGo_values (data : List Char) :
    ∀ (fuel : Nat) (pos : Int) (acc m : TLVEntries),
    (∀ e ∈ acc, (∀ c ∈ e.2, c ∈ data) ∧ e.2.length ≤ data.length) →
    parseTLVGo data fuel pos acc = some m →
    ∀ e ∈ m, (∀ c ∈ e.2, c ∈ data) ∧ e.2.length ≤ data.length := by
  intro fuel
  induction fuel with
  | zero =>
    intro pos acc m _ hm
    rw [parseTLVGo_zero] at hm
    exact absurd hm (by simp)
  | succ fuel ih =>
    intro pos acc m hacc hm
    rw [parseTLVGo_succ] at hm
    have hset : ∀ (a b : Int),
        ∀ e ∈ tlvSet acc (jsSubstring data pos (pos + 2)) (jsSubstring data a b),
        (∀ c ∈ e.2, c ∈ data) ∧ e.2.length ≤ data.length := by
      intro a b e he
      unfold tlvSet at he
      rw [List.mem_append] at he
      rcases he with he | he
      · exact hacc e he
      · rw [List.mem_singleton] at he
        subst he
        exact ⟨fun c hc => mem_of_mem_jsSubstring hc, jsSubstring_length_le _ _ _⟩
    by_cases hcond : pos < (data.length : Int)
    · rw [if_pos hcond] at hm
      rcases hp : jsParseInt (jsSubstring data (pos + 2) (pos + 4)) with _ | len
      · rw [hp] at hm
        simp only [Option.some.injEq] at hm
        subst hm
        exact hset _ _
      · rw [hp] at hm
        exact ih _ _ m (hset _ _) hm
    · rw [if_neg hcond] at hm
      simp only [Option.some.injEq] at hm
      subst hm
      exact hacc

lemma badTLV_step (f : Nat) (acc : TLVEntries) :
    parseTLVGo badTLVInput (f + 1) 0 acc
      = parseTLVGo badTLVInput f 0 (tlvSet acc ("ab".toList) ("ab-4".toList)) := rfl

lemma badTLV_none : ∀ (f : Nat) (acc : TLVEntries), parseTLVGo badTLVInput f 0 acc = none := by
  intro f
  induction f with
  | zero => intro acc; rfl
  | succ f ih =>
    intro acc
    rw [badTLV_step]
    exact ih _

/-! ### C4 — quote construction -/

/-- C4: `createQuote` computes `fee.network = networkFeeTable[token] / rate.rate`
with the table USDT = USDC = 5, ETH = 15; `fee.service = (amountTHB / rate.rate)
× 0.005`; `fee.total = fee.network + fee.service`;
`amountCrypto = amountTHB / rate.rate + fee.total`; and
`expiresAt = createdAt + 180_000` ms. -/
theorem createQuote_spec (amountTHB : ℚ) (token : SupportedToken)
    (promptPay : PromptPayData) (rate : ExchangeRate) (now : ℤ) (newId : String)
    (q : PaymentQuote)
    (hq : q = MockExchangeService.createQuote amountTHB token promptPay rate now newId)
    (_hamt : 0 < amountTHB) (_hrate : 0 < rate.rate) :
    q.fee.network = NETWORK_FEE_ESTIMATES token / rate.rate ∧
    NETWORK_FEE_ESTIMATES .USDT = 5 ∧ NETWORK_FEE_ESTIMATES .USDC = 5 ∧
    NETWORK_FEE_ESTIMATES .ETH = 15 ∧
    q.fee.service = amountTHB / rate.rate * (5 / 1000) ∧
    q.fee.total = q.fee.network + q.fee.service ∧
    q.amountCrypto = amountTHB / rate.rate + q.fee.total ∧
    q.createdAt = now ∧
    q.expiresAt = q.createdAt + 180000 := by
  subst hq
  unfold MockExchangeService.createQuote
  refine ⟨rfl, rfl, rfl, rfl, ?_, rfl, rfl, rfl, ?_⟩
  · show amountTHB / rate.rate * (SERVICE_FEE_PERCENT / 100) = amountTHB / rate.rate * (5 / 1000)
    norm_num [SERVICE_FEE_PERCENT]
  · show now + QUOTE_VALIDITY_MS = now + 180000
    norm_num [QUOTE_VALIDITY_MS]

/-- C4 witness: the sample quote at 150 THB, USDT, rate 35.5. -/
theorem createQuote_spec_witness :
    sampleQuote.fee.network = NETWORK_FEE_ESTIMATES .USDT / sampleRate.rate ∧
    NETWORK_FEE_ESTIMATES .USDT = 5 ∧ NETWORK_FEE_ESTIMATES .USDC = 5 ∧
    NETWORK_FEE_ESTIMATES .ETH = 15 ∧
    sampleQuote.fee.service = 150 / sampleRate.rate * (5 / 1000) ∧
    sampleQuote.fee.total = sampleQuote.fee.network + sampleQuote.fee.service ∧
    sampleQuote.amountCrypto = 150 / sampleRate.rate + sampleQuote.fee.total ∧
    sampleQuote.createdAt = 0 ∧
    sampleQuote.expiresAt = sampleQuote.createdAt + 180000 :=
  createQuote_spec 150 .USDT samplePromptPay sampleRate 0 "q1" sampleQuote rfl
    (by norm_num) (by norm_num [sampleRate])

/-! ### C5 — retry schedule -/

/-- C5: `scheduleRetry` increments `retryCount` first; while the new count is
below 5 the next retry is `now + min(5_000 × 2^(retryCount−1), 300_000)` ms;
once it reaches 5 the order is marked FAILED with message
`"Max retries exceeded: <reason>"` and the item is dequeued, so an item is
attempted at most five times. -/
theorem scheduleRetry_spec (item : OfflineQueueItem) (reason : String) (now : ℤ) :
    (item.retryCount + 1 < 5 →
      OfflineQueueManager.scheduleRetry item reason now =
        .scheduled (item.retryCount + 1)
          (now + ((min (5000 * 2 ^ (item.retryCount + 1 - 1)) 300000 : ℕ) : ℤ))) ∧
    (5 ≤ item.retryCount + 1 →
      OfflineQueueManager.scheduleRetry item reason now =
        .failedAndDequeued { item.order with
                             status := .failed,
                             error := some ("Max retries exceeded: " ++ reason),
                             updatedAt := now }) := by
  unfold OfflineQueueManager.scheduleRetry
  have hmax : RETRY_CONFIG.maxRetries = 5 := rfl
  constructor
  · intro h
    rw [if_neg (by rw [hmax]; omega)]
    rfl
  · intro h
    rw [if_pos (by rw [hmax]; omega)]
    rfl

/-- C5 witness: a first failure is rescheduled after 5 s; the fifth failure
marks the order FAILED and dequeues. -/
theorem scheduleRetry_spec_witness :
    OfflineQueueManager.scheduleRetry (sampleItem 0) MSG_SETTLEMENT_FAILED 0 =
        .scheduled (0 + 1) (0 + ((min (5000 * 2 ^ (0 + 1 - 1)) 300000 : ℕ) : ℤ)) ∧
      OfflineQueueManager.scheduleRetry (sampleItem 4) MSG_SETTLEMENT_FAILED 0 =
        .failedAndDequeued { (sampleItem 4).order with
                             status := .failed,
                             error := some ("Max retries exceeded: " ++ MSG_SETTLEMENT_FAILED),
                             updatedAt := 0 } :=
  ⟨(scheduleRetry_spec (sampleItem 0) MSG_SETTLEMENT_FAILED 0).1 (by decide),
   (scheduleRetry_spec (sampleItem 4) MSG_SETTLEMENT_FAILED 0).2 (by decide)⟩

/-! ### C6 — expired or missing quote in confirm_payment -/

/-- C6: when the quote id is absent from the quote store, or the quote has
expired (`now > expiresAt`), `confirmPayment` returns `success = false` with
the quote-not-found / quote-expired error, creates no order, and leaves the
order store unchanged. -/
theorem confirm_quote_missing_or_expired
    (quoteStore : List (String × PaymentQuote)) (orderStore : List (String × PaymentOrder))
    (quoteId userId chatId newOrderId : String) (now : ℤ) (o : ConfirmOracle)
    (r : ConfirmOutcome)
    (hr : r = confirmPayment quoteStore orderStore quoteId userId chatId newOrderId now o) :
    (storeGet quoteStore quoteId = none →
      r.success = false ∧ r.error = some MSG_QUOTE_NOT_FOUND ∧
      r.orderStore = orderStore ∧ r.order = none ∧ r.writes = []) ∧
    (∀ q, storeGet quoteStore quoteId = some q → now > q.expiresAt →
      r.success = false ∧ r.error = some MSG_QUOTE_EXPIRED ∧
      r.orderStore = orderStore ∧ r.order = none ∧ r.writes = []) := by
  subst hr
  constructor
  · intro h
    unfold confirmPayment
    rw [h]
    exact ⟨rfl, rfl, rfl, rfl, rfl⟩
  · intro q hq hexp
    have hstep : confirmPayment quoteStore orderStore quoteId userId chatId newOrderId now o
        = { success := false, error := some MSG_QUOTE_EXPIRED,
            quoteStore := quoteStore, orderStore := orderStore, writes := [] } := by
      unfold confirmPayment
      rw [hq]
      exact if_pos hexp
    rw [hstep]
    exact ⟨rfl, rfl, rfl, rfl, rfl⟩

/-- C6 witness: a missing quote id over an empty store, and the sample quote
21 s after its expiry. -/
theorem confirm_quote_missing_or_expired_witness :
    ((confirmPayment [] [] "missing" "u" "c" "o1" 0 sampleOracleOk).success = false ∧
      (confirmPayment [] [] "missing" "u" "c" "o1" 0 sampleOracleOk).error
          = some MSG_QUOTE_NOT_FOUND ∧
      (confirmPayment [] [] "missing" "u" "c" "o1" 0 sampleOracleOk).orderStore = [] ∧
      (confirmPayment [] [] "missing" "u" "c" "o1" 0 sampleOracleOk).order = none ∧
      (confirmPayment [] [] "missing" "u" "c" "o1" 0 sampleOracleOk).writes = []) ∧
    ((confirmPayment [("q1", sampleQuote)] [] "q1" "u" "c" "o1" 200000 sampleOracleOk).success
          = false ∧
      (confirmPayment [("q1", sampleQuote)] [] "q1" "u" "c" "o1" 200000 sampleOracleOk).error
          = some MSG_QUOTE_EXPIRED ∧
      (confirmPayment [("q1", sampleQuote)] [] "q1" "u" "c" "o1" 200000 sampleOracleOk).orderStore
          = [] ∧
      (confirmPayment [("q1", sampleQuote)] [] "q1" "u" "c" "o1" 200000 sampleOracleOk).order
          = none ∧
      (confirmPayment [("q1", sampleQuote)] [] "q1" "u" "c" "o1" 200000 sampleOracleOk).writes
          = []) :=
  ⟨(confirm_quote_missing_or_expired [] [] "missing" "u" "c" "o1" 0 sampleOracleOk _ rfl).1
      rfl,
   (confirm_quote_missing_or_expired [("q1", sampleQuote)] [] "q1" "u" "c" "o1" 200000
      sampleOracleOk _ rfl).2 sampleQuote rfl (by decide)⟩

/-! ### C8 — EIP-712 offline-payment verification -/

/-- C8: `verifyOfflinePayment` returns `valid = true` exactly when
`deadline ≥ floor(now_ms / 1000)` and the address recovered from the typed-data
signature equals the claimed signer under case-insensitive comparison; on any
failure it returns `valid = false` with an error message, and with the
recovered signer whenever recovery succeeded and the deadline had not passed. -/
theorem verifyOfflinePayment_spec
    (recover : Eip712Domain → OfflinePaymentMessage → String → Except String String)
    (nowMs : ℤ) (sp : SignedOfflinePayment) :
    ((verifyOfflinePayment recover nowMs sp).valid = true ↔
      (Int.fdiv nowMs 1000 ≤ sp.message.deadline ∧
        ∃ r, recover sp.domain sp.message sp.signature = .ok r ∧
          toLowerStr r = toLowerStr sp.signer)) ∧
    ((verifyOfflinePayment recover nowMs sp).valid = false →
      (verifyOfflinePayment recover nowMs sp).error.isSome = true) ∧
    (∀ r, recover sp.domain sp.message sp.signature = .ok r →
      Int.fdiv nowMs 1000 ≤ sp.message.deadline →
      (verifyOfflinePayment recover nowMs sp).signer = some r) := by
  unfold verifyOfflinePayment
  by_cases hd : sp.message.deadline < Int.fdiv nowMs 1000
  · rw [if_pos hd]
    refine ⟨⟨fun h => absurd h (by simp), fun ⟨h1, _⟩ => absurd h1 (by omega)⟩,
      fun _ => rfl, fun r _ hle => absurd hle (by omega)⟩
  · rw [if_neg hd]
    rcases hr : recover sp.domain sp.message sp.signature with m | r
    · refine ⟨⟨fun h => absurd h (by simp), fun ⟨_, r, hc, _⟩ => by simp at hc⟩,
        fun _ => rfl, fun r hc _ => by simp at hc⟩
    · dsimp only
      by_cases hs : toLowerStr r ≠ toLowerStr sp.signer
      · rw [if_pos hs]
        refine ⟨⟨fun h => absurd h (by simp), ?_⟩, fun _ => rfl, ?_⟩
        · rintro ⟨_, r2, hr2, hlow⟩
          rw [Except.ok.injEq] at hr2
          subst hr2
          exact absurd hlow hs
        · intro r2 hr2 _
          rw [Except.ok.injEq] at hr2
          subst hr2
          rfl
      · rw [if_neg hs]
        rw [not_not] at hs
        refine ⟨⟨fun _ => ⟨by omega, r, rfl, hs⟩, fun _ => rfl⟩, fun h => absurd h (by simp), ?_⟩
        intro r2 hr2 _
        rw [Except.ok.injEq] at hr2
        subst hr2
        rfl

/-- C8 witness: a signed payment with deadline 100 verified at time 0 against a
recovery oracle returning the claimed signer in different case. -/
theorem verifyOfflinePayment_spec_witness :
    ((verifyOfflinePayment sampleRecover 0 sampleSignedPayment).valid = true ↔
      (Int.fdiv 0 1000 ≤ sampleSignedPayment.message.deadline ∧
        ∃ r, sampleRecover sampleSignedPayment.domain sampleSignedPayment.message
            sampleSignedPayment.signature = .ok r ∧
          toLowerStr r = toLowerStr sampleSignedPayment.signer)) ∧
    (verifyOfflinePayment sampleRecover 0 sampleSignedPayment).valid = true :=
  ⟨(verifyOfflinePayment_spec sampleRecover 0 sampleSignedPayment).1,
   (verifyOfflinePayment_spec sampleRecover 0 sampleSignedPayment).1.mpr
     ⟨by decide, "0xAB", rfl, by decide⟩⟩

/-- C9 counterexample: the notification delivered to a subscriber is the new
status alone, not the pair `(oldStatus, newStatus)` — two checks starting from
different old statuses deliver identical notifications `[(0, OFFLINE)]`, so
the payload cannot carry the old status. -/
theorem notify_payload_lacks_old_status :
    (NetworkStatusDetector.check detectorOnline probeDead).2
        = (NetworkStatusDetector.check detectorWeak probeDead).2 ∧
      detectorOnline.status ≠ detectorWeak.status ∧
      (NetworkStatusDetector.check detectorOnline probeDead).2
        = [(0, NetworkStatus.offline)] :=
  ⟨rfl, by decide, rfl⟩

/-- C9: whenever the aggregated status differs from the current one, every
registered subscriber is notified (with the new status); when it does not
differ no notification is sent; and a subscriber removed through the
unsubscribe handle is never notified again. -/
theorem notify_spec (st : DetectorState) (probe : String → Option ℚ) :
    ((NetworkStatusDetector.check st probe).1.status ≠ st.status →
      (NetworkStatusDetector.check st probe).2
        = st.listeners.map (fun l => (l, (NetworkStatusDetector.check st probe).1.status))) ∧
    ((NetworkStatusDetector.check st probe).1.status = st.status →
      (NetworkStatusDetector.check st probe).2 = []) ∧
    (∀ l, ∀ p ∈ (NetworkStatusDetector.check
        (NetworkStatusDetector.unsubscribe st l) probe).2, p.1 ≠ l) := by
  unfold NetworkStatusDetector.check NetworkStatusDetector.unsubscribe
  dsimp only
  refine ⟨?_, ?_, ?_⟩
  · intro hne
    by_cases hch : aggregateStatus st.endpoints probe ≠ st.status
    · rw [if_pos hch] at hne ⊢
    · rw [if_neg hch] at hne
      exact absurd rfl hne
  · intro heq
    by_cases hch : aggregateStatus st.endpoints probe ≠ st.status
    · rw [if_pos hch] at heq
      exact absurd heq hch
    · rw [if_neg hch]
  · intro l p hp
    by_cases hch : aggregateStatus st.endpoints probe ≠ st.status
    · rw [if_pos hch] at hp
      rw [List.mem_map] at hp
      obtain ⟨x, hx, rfl⟩ := hp
      rw [List.mem_filter] at hx
      have hx2 := hx.2
      simp only [decide_eq_true_eq] at hx2
      exact hx2
    · rw [if_neg hch] at hp
      exact absurd hp (by simp)

/-! ### C3 — order-status transitions -/

/-- C3 counterexample: with a valid quote but insufficient balance,
`confirmPayment` writes `QUOTED` and then `FAILED`, a transition that is not in
the §4.4 legal graph — it is written, not rejected. -/
theorem confirm_writes_illegal_transition :
    (confirmPayment [("q1", sampleQuote)] [] "q1" "u" "c" "o1" 0 lowBalanceOracle).writes
        = [PaymentStatus.quoted, PaymentStatus.failed] ∧
      legalTransition .quoted .failed = false := by
  constructor
  · have hq : storeGet [("q1", sampleQuote)] "q1" = some sampleQuote := rfl
    have hexp : ¬ ((0 : ℤ) > sampleQuote.expiresAt) := by decide
    have hbal : lowBalanceOracle.balance < sampleQuote.amountCrypto := by
      show (0 : ℚ) < sampleQuote.amountCrypto
      unfold sampleQuote MockExchangeService.createQuote sampleRate
      norm_num [NETWORK_FEE_ESTIMATES, SERVICE_FEE_PERCENT]
    unfold confirmPayment
    rw [hq]
    dsimp only
    rw [if_neg hexp, if_pos hbal]
  · rfl

/-- C3 (amended): the statuses written by `confirmPayment` and by the queue
processor's `processItem` advance along the §4.4 graph extended with
`QUOTED → FAILED` (insufficient balance) and `PENDING → COMPLETED` (the
processor completes without an intermediate `SETTLED` write); there is no
rejection mechanism — the operations simply write only these transitions. -/
theorem status_writes_follow_extended_graph
    (quoteStore : List (String × PaymentQuote)) (orderStore : List (String × PaymentOrder))
    (quoteId userId chatId newOrderId : String) (now : ℤ) (o : ConfirmOracle) :
    StatusChain extendedTransition
        (confirmPayment quoteStore orderStore quoteId userId chatId newOrderId now o).writes ∧
    ∀ (item : OfflineQueueItem) (pnow : ℤ) (po : ProcessOracle),
      item.order.status = .signed ∨ item.order.status = .pending →
      StatusChain extendedTransition
        (item.order.status :: (OfflineQueueManager.processItem item pnow po).writes) := by
  constructor
  · unfold confirmPayment
    split
    · dsimp only
      simp only [List.chain'_nil]
    · split_ifs <;> dsimp only <;>
        simp only [List.chain'_cons, List.chain'_singleton, List.chain'_nil] <;> decide
  · intro item pnow po hst
    unfold OfflineQueueManager.processItem OfflineQueueManager.scheduleRetry
    rcases hst with h | h <;> rw [h] <;>
      rcases po.broadcastResult with msg | tx <;> dsimp only <;> split_ifs <;> dsimp only
    all_goals simp only [List.chain'_cons, List.chain'_singleton, List.chain'_nil]
    all_goals decide

/-- C3 witness: the extended-graph chain property at a concrete happy-path
confirm call and a concrete first-attempt queue item. -/
theorem status_writes_follow_extended_graph_witness :
    StatusChain extendedTransition
        (confirmPayment [("q1", sampleQuote)] [] "q1" "u" "c" "o1" 0 sampleOracleOk).writes ∧
      StatusChain extendedTransition
        (PaymentStatus.signed
          :: (OfflineQueueManager.processItem (sampleItem 0) 0 sampleProcessOk).writes) :=
  ⟨(status_writes_follow_extended_graph [("q1", sampleQuote)] [] "q1" "u" "c" "o1" 0
      sampleOracleOk).1,
   (status_writes_follow_extended_graph [] [] "q" "u" "c" "o" 0 sampleOracleOk).2
      (sampleItem 0) 0 sampleProcessOk (Or.inl rfl)⟩

/-! ### Supporting lemmas: the generated payload and its round-trip -/

lemma crc16Round_lt (c : Nat) : crc16Round c < 65536 := by
  unfold crc16Round
  split <;> exact Nat.mod_lt _ (by omega)

lemma crc16UpdateByte_lt (c b : Nat) : crc16UpdateByte c b < 65536 :=
  crc16Round_lt _

lemma crc16ccitt_lt (bytes : List Nat) : crc16ccitt bytes < 65536 := by
  unfold crc16ccitt
  have h : ∀ (l : List Nat) (x : Nat), x < 65536 → l.foldl crc16UpdateByte x < 65536 := by
    intro l
    induction l with
    | nil => intro x hx; simpa using hx
    | cons b bs ih =>
      intro x _
      rw [List.foldl_cons]
      exact ih _ (crc16UpdateByte_lt x b)
  exact h bytes 0xFFFF (by omega)

lemma natToHexUpper_ne_nil (n : Nat) : natToHexUpper n ≠ [] := by
  rw [natToHexUpper_rec]
  split
  · simp
  · simp

lemma natToHexUpper_length_le (n : Nat) : ∀ (k : Nat), 1 ≤ k → n < 16 ^ k →
    (natToHexUpper n).length ≤ k := by
  induction n using Nat.strong_induction_on with
  | _ n ih =>
    intro k hk h
    rcases Nat.lt_or_ge n 16 with hn | hn
    · rw [natToHexUpper_rec, if_pos hn]
      simpa using hk
    · rw [natToHexUpper_rec, if_neg (by omega : ¬ n < 16)]
      rw [List.length_append, List.length_singleton]
      have hk1 : 1 ≤ k - 1 := by
        rcases Nat.lt_or_ge k 2 with hk2 | hk2
        · exfalso
          have hke : k = 1 := by omega
          rw [hke, pow_one] at h
          omega
        · omega
      have hdiv : n / 16 < 16 ^ (k - 1) := by
        rw [Nat.div_lt_iff_lt_mul (by omega)]
        calc n < 16 ^ k := h
          _ = 16 ^ (k - 1) * 16 := by
            rw [← pow_succ]
            congr 1
            omega
      have := ih (n / 16) (Nat.div_lt_self (by omega) (by omega)) (k - 1) hk1 hdiv
      omega

lemma crcHex4_length {n : Nat} (h : n < 65536) : (crcHex4 n).length = 4 := by
  unfold crcHex4 padLeft
  rw [List.length_append, List.length_replicate]
  have h1 : 0 < (natToHexUpper n).length := List.length_pos.mpr (natToHexUpper_ne_nil n)
  have h2 : (natToHexUpper n).length ≤ 4 := natToHexUpper_length_le n 4 (by omega) (by omega)
  omega

lemma hexDigitUpper_mem (n : Nat) : hexDigitUpper n ∈ hexUpperChars := by
  unfold hexDigitUpper
  split <;> decide

lemma natToHexUpper_mem (n : Nat) : ∀ c ∈ natToHexUpper n, c ∈ hexUpperChars := by
  induction n using Nat.strong_induction_on with
  | _ n ih =>
    rcases Nat.lt_or_ge n 16 with h | h
    · rw [natToHexUpper_rec, if_pos h]
      intro c hc
      rw [List.mem_singleton] at hc
      subst hc
      exact hexDigitUpper_mem n
    · rw [natToHexUpper_rec, if_neg (by omega : ¬ n < 16)]
      intro c hc
      rw [List.mem_append] at hc
      rcases hc with hc | hc
      · exact ih (n / 16) (Nat.div_lt_self (by omega) (by omega)) c hc
      · rw [List.mem_singleton] at hc
        subst hc
        exact hexDigitUpper_mem _

lemma crcHex4_mem (n : Nat) : ∀ c ∈ crcHex4 n, c ∈ hexUpperChars := by
  unfold crcHex4 padLeft
  intro c hc
  rw [List.mem_append] at hc
  rcases hc with hc | hc
  · rw [List.mem_replicate] at hc
    rw [hc.2]
    decide
  · exact natToHexUpper_mem n c hc

lemma toUpperChar_hex {c : Char} (h : c ∈ hexUpperChars) : toUpperChar c = c := by
  fin_cases h <;> rfl

lemma map_id_of_fixed {f : Char → Char} :
    ∀ {l : List Char}, (∀ c ∈ l, f c = c) → l.map f = l := by
  intro l h
  induction l with
  | nil => rfl
  | cons c cs ih =>
    rw [List.map_cons, h c (by simp), ih (fun x hx => h x (by simp [hx]))]

lemma map_toUpper_crcHex4 (n : Nat) : (crcHex4 n).map toUpperChar = crcHex4 n :=
  map_id_of_fixed (fun c hc => toUpperChar_hex (crcHex4_mem n c hc))

lemma tlvEncode_append (l₁ l₂ : TLVEntries) :
    tlvEncode (l₁ ++ l₂) = tlvEncode l₁ ++ tlvEncode l₂ := by
  induction l₁ with
  | nil => simp [tlvEncode]
  | cons r rest ih =>
    rw [List.cons_append, tlvEncode_cons, tlvEncode_cons, ih]
    simp [List.append_assoc]

lemma mem_tlvEncode {c : Char} {recs : TLVEntries} (h : c ∈ tlvEncode recs) :
    ∃ r ∈ recs, c ∈ r.1 ∨ c ∈ lenDigits2 r.2.length ∨ c ∈ r.2 := by
  induction recs with
  | nil => simp [tlvEncode] at h
  | cons r rest ih =>
    rw [tlvEncode_cons] at h
    simp only [List.append_assoc, List.mem_append] at h
    rcases h with h | h | h | h
    · exact ⟨r, by simp, Or.inl h⟩
    · exact ⟨r, by simp, Or.inr (Or.inl h)⟩
    · exact ⟨r, by simp, Or.inr (Or.inr h)⟩
    · obtain ⟨r', hr', hc⟩ := ih h
      exact ⟨r', by simp [hr'], hc⟩

lemma dropWhile_eq_self_of_none {p : Char → Bool} {A : List Char}
    (h : ∀ a ∈ A, p a = false) : A.dropWhile p = A := by
  cases A with
  | nil => rfl
  | cons a as =>
    rw [List.dropWhile_cons, h a (by simp)]
    rfl

lemma cleanPayload_eq_self {l : List Char}
    (h : ∀ c ∈ l, isJsWhitespace c = false) : cleanPayload l = l := by
  unfold cleanPayload
  rw [List.filter_eq_self]
  intro c hc
  simp [h c hc]

lemma generate_eq (id : List Char) (amt : Option ℚ) :
    generatePromptPayPayload id amt
      = genP1 id amt ++ crcHex4 (crc16ccitt (strBytes (genP1 id amt))) := rfl

lemma ePF : TAG_PAYLOAD_FORMAT ++ lenDigits2 PAYLOAD_FORMAT_01.length ++ PAYLOAD_FORMAT_01
    = FIELD_PAYLOAD_FORMAT := rfl

lemma ePOIs : TAG_POI_METHOD ++ lenDigits2 ("11".toList).length ++ "11".toList
    = FIELD_POI_STATIC := rfl

lemma ePOId : TAG_POI_METHOD ++ lenDigits2 ("12".toList).length ++ "12".toList
    = FIELD_POI_DYNAMIC := rfl

lemma eCUR : TAG_TRANSACTION_CURRENCY ++ lenDigits2 DEFAULT_CURRENCY.length ++ DEFAULT_CURRENCY
    = FIELD_CURRENCY := rfl

lemma eCTY : TAG_COUNTRY_CODE ++ lenDigits2 DEFAULT_COUNTRY.length ++ DEFAULT_COUNTRY
    = FIELD_COUNTRY := rfl

lemma eCRCPH : TAG_CRC ++ lenDigits2 4 = FIELD_CRC_PLACEHOLDER := rfl

lemma genMerchantInfo_eq (id : List Char) : genMerchantInfo id
    = (SUBTAG_AID ++ lenDigits2 PROMPTPAY_AID.length ++ PROMPTPAY_AID)
      ++ (SUBTAG_PHONE ++ lenDigits2 (genFormattedId id).length ++ genFormattedId id) := by
  unfold genMerchantInfo
  rw [tlvEncode_cons, tlvEncode_cons, tlvEncode_nil, List.append_nil]

lemma genP1_none (id : List Char) :
    genP1 id none = tlvEncode (bodyNone id) ++ FIELD_CRC_PLACEHOLDER := by
  unfold genP1 bodyNone
  dsimp only
  rw [if_neg (by decide : ¬ (false = true)), List.append_nil]
  rw [tlvEncode_cons, tlvEncode_cons, tlvEncode_cons, tlvEncode_cons, tlvEncode_cons,
    tlvEncode_nil, List.append_nil]
  rw [ePF, ePOIs, eCUR, eCTY, genMerchantInfo_eq]
  unfold genFormattedId
  simp only [List.append_assoc]

lemma genP1_some (id : List Char) (a : ℚ) (ha : ¬ a = 0) :
    genP1 id (some a) = tlvEncode (bodyAmt id a) ++ FIELD_CRC_PLACEHOLDER := by
  unfold genP1 bodyAmt
  dsimp only
  rw [if_pos (decide_eq_true (ha : a ≠ 0)), if_neg ha]
  rw [tlvEncode_cons, tlvEncode_cons, tlvEncode_cons, tlvEncode_cons, tlvEncode_cons,
    tlvEncode_cons, tlvEncode_nil, List.append_nil]
  rw [ePF, ePOId, eCUR, eCTY, genMerchantInfo_eq]
  unfold genFormattedId
  simp only [List.append_assoc]

lemma encode_crc_append (body : TLVEntries) (crc4 : List Char) (h4 : crc4.length = 4) :
    tlvEncode (body ++ [(TAG_CRC, crc4)])
      = tlvEncode body ++ FIELD_CRC_PLACEHOLDER ++ crc4 := by
  rw [tlvEncode_append, tlvEncode_cons, tlvEncode_nil, List.append_nil, h4, ← eCRCPH]
  simp [List.append_assoc]

lemma generate_encode_none (id : List Char) :
    generatePromptPayPayload id none
      = tlvEncode (bodyNone id
          ++ [(TAG_CRC, crcHex4 (crc16ccitt (strBytes (genP1 id none))))]) := by
  rw [encode_crc_append _ _ (crcHex4_length (crc16ccitt_lt _)), ← genP1_none]
  exact generate_eq id none

lemma generate_encode_some (id : List Char) (a : ℚ) (ha : ¬ a = 0) :
    generatePromptPayPayload id (some a)
      = tlvEncode (bodyAmt id a
          ++ [(TAG_CRC, crcHex4 (crc16ccitt (strBytes (genP1 id (some a)))))]) := by
  rw [encode_crc_append _ _ (crcHex4_length (crc16ccitt_lt _)), ← genP1_some id a ha]
  exact generate_eq id (some a)

lemma validateCRC_of_append_crc (p1 : List Char) :
    validateCRC (p1 ++ crcHex4 (crc16ccitt (strBytes p1))) = true := by
  unfold validateCRC
  dsimp only
  have h4 : (crcHex4 (crc16ccitt (strBytes p1))).length = 4 :=
    crcHex4_length (crc16ccitt_lt _)
  have hlen : (p1 ++ crcHex4 (crc16ccitt (strBytes p1))).length - 4 = p1.length := by
    rw [List.length_append, h4]
    omega
  rw [hlen, List.take_left, List.drop_left, map_toUpper_crcHex4]
  simp

/-! ### `toFixed(2)` on exact cent amounts, and parsing it back -/

lemma toFixed2_cents (c : Nat) :
    toFixed2 ((c : ℚ) / 100) = natToDec (c / 100) ++ '.' :: lenDigits2 (c % 100) := by
  unfold toFixed2
  dsimp only
  have h1 : ((c : ℚ) / 100) * 100 = (c : ℚ) := by
    field_simp
  have h2 : ((c : ℚ) + 1 / 2).floor = (c : ℤ) := by
    show Int.floor ((c : ℚ) + 1 / 2) = (c : ℤ)
    rw [show ((c : ℚ) + 1 / 2) = 1 / 2 + ((c : ℤ) : ℚ) by push_cast; ring,
      Int.floor_add_int]
    norm_num
  rw [h1, h2]
  rw [show ((c : ℤ).toNat) = c from Int.toNat_natCast c]
  rfl

lemma digit_not_sign {c : Char} (h : isDigitChar c = true) :
    c ≠ '-' ∧ c ≠ '+' := by
  have := isDigitChar_range h
  constructor
  · intro hc
    subst hc
    revert this
    decide
  · intro hc
    subst hc
    revert this
    decide

lemma jsParseFloat_toFixed2 (c : Nat) :
    jsParseFloat (toFixed2 ((c : ℚ) / 100)) = some ((c : ℚ) / 100) := by
  rw [toFixed2_cents]
  obtain ⟨d, ds, hnd⟩ : ∃ d ds, natToDec (c / 100) = d :: ds := by
    rcases h : natToDec (c / 100) with _ | ⟨d, ds⟩
    · exact absurd h (natToDec_ne_nil _)
    · exact ⟨d, ds, rfl⟩
  have hdds : ∀ x ∈ d :: ds, isDigitChar x = true := by
    rw [← hnd]
    exact natToDec_digits _
  have hd : isDigitChar d = true := hdds d (by simp)
  have hsign := digit_not_sign hd
  unfold jsParseFloat
  dsimp only
  rw [hnd, List.cons_append]
  have hws : ((d :: (ds ++ '.' :: lenDigits2 (c % 100))).dropWhile isJsWhitespace)
      = d :: (ds ++ '.' :: lenDigits2 (c % 100)) := by
    apply dropWhile_eq_self_of_none
    intro a ha
    rw [List.mem_cons] at ha
    rcases ha with rfl | ha
    · have := isDigitChar_range hd
      exact not_ws_of_range (by omega) (by omega)
    · rw [List.mem_append] at ha
      rcases ha with ha | ha
      · have := isDigitChar_range (hdds a (by simp [ha]))
        exact not_ws_of_range (by omega) (by omega)
      · rw [List.mem_cons] at ha
        rcases ha with rfl | ha
        · exact not_ws_of_range (by decide) (by decide)
        · have := isDigitChar_range (lenDigits2_digits a ha)
          exact not_ws_of_range (by omega) (by omega)
  rw [hws]
  have hsgn : (match d :: (ds ++ '.' :: lenDigits2 (c % 100)) with
      | '-' :: _ => (-1 : ℚ) | _ => 1) = 1 := by
    split
    · rename_i heq
      injection heq with h1 h2
      exact absurd h1 hsign.1
    · rfl
  have hs2 : (match d :: (ds ++ '.' :: lenDigits2 (c % 100)) with
      | '-' :: r => r | '+' :: r => r
      | _ => d :: (ds ++ '.' :: lenDigits2 (c % 100)))
      = d :: (ds ++ '.' :: lenDigits2 (c % 100)) := by
    split
    · rename_i heq
      injection heq with h1 h2
      exact absurd h1 hsign.1
    · rename_i heq
      injection heq with h1 h2
      exact absurd h1 hsign.2
    · rfl
  rw [hsgn, hs2]
  have htw : (d :: (ds ++ '.' :: lenDigits2 (c % 100))).takeWhile isDigitChar
      = d :: ds := by
    rw [show d :: (ds ++ '.' :: lenDigits2 (c % 100))
        = (d :: ds) ++ '.' :: lenDigits2 (c % 100) from rfl]
    rw [takeWhile_append_of_all _ hdds, List.takeWhile_cons,
      show isDigitChar '.' = false from rfl]
    simp
  have hdw : (d :: (ds ++ '.' :: lenDigits2 (c % 100))).dropWhile isDigitChar
      = '.' :: lenDigits2 (c % 100) := by
    rw [show d :: (ds ++ '.' :: lenDigits2 (c % 100))
        = (d :: ds) ++ '.' :: lenDigits2 (c % 100) from rfl]
    rw [dropWhile_append_of_all _ hdds, List.dropWhile_cons,
      show isDigitChar '.' = false from rfl]
    rfl
  rw [htw, hdw]
  have hfp : (match '.' :: lenDigits2 (c % 100) with
      | '.' :: r => r.takeWhile isDigitChar
      | _ => ([] : List Char)) = (lenDigits2 (c % 100)).takeWhile isDigitChar := rfl
  rw [hfp]
  rw [takeWhile_eq_self_of_all (lenDigits2_digits (n := c % 100))]
  rw [if_neg (by simp)]
  rw [← hnd, decToNat_natToDec, decToNat_lenDigits2,
    lenDigits2_length (Nat.le_of_lt_succ (Nat.mod_lt c (by omega)))]
  rw [one_mul]
  have hsplit : (100 : ℚ) * ((c / 100 : ℕ) : ℚ) + ((c % 100 : ℕ) : ℚ) = (c : ℚ) := by
    exact_mod_cast congrArg (fun n : Nat => (n : ℚ)) (Nat.div_add_mod c 100)
  rw [show ((10 : ℚ) ^ 2) = 100 by norm_num]
  field_simp
  linarith

lemma toFixed2_length_le (c : Nat) (h : c < 10 ^ 10) :
    (toFixed2 ((c : ℚ) / 100)).length ≤ 99 := by
  rw [toFixed2_cents]
  rw [List.length_append, List.length_cons]
  have h1 : (natToDec (c / 100)).length ≤ 8 := by
    apply natToDec_length_le _ 8 (by omega)
    omega
  have h2 : (lenDigits2 (c % 100)).length = 2 :=
    lenDigits2_length (Nat.le_of_lt_succ (Nat.mod_lt c (by omega)))
  omega

/-! ### Character ranges and lengths of the generated payload -/

lemma range_of_digit {c : Char} (h : isDigitChar c = true) :
    46 ≤ c.toNat ∧ c.toNat ≤ 90 := by
  have := isDigitChar_range h
  omega

lemma range_of_hex {c : Char} (h : c ∈ hexUpperChars) :
    46 ≤ c.toNat ∧ c.toNat ≤ 90 := by
  fin_cases h <;> exact ⟨by decide, by decide⟩

lemma range_lenDigits2 {n : Nat} : ∀ c ∈ lenDigits2 n, 46 ≤ c.toNat ∧ c.toNat ≤ 90 :=
  fun c hc => range_of_digit (lenDigits2_digits c hc)

lemma range_natToDec {n : Nat} : ∀ c ∈ natToDec n, 46 ≤ c.toNat ∧ c.toNat ≤ 90 :=
  fun c hc => range_of_digit (natToDec_digits n c hc)

lemma range_toFixed2_cents (c : Nat) :
    ∀ ch ∈ toFixed2 ((c : ℚ) / 100), 46 ≤ ch.toNat ∧ ch.toNat ≤ 90 := by
  rw [toFixed2_cents]
  intro ch hch
  rw [List.mem_append] at hch
  rcases hch with hch | hch
  · exact range_natToDec ch hch
  · rw [List.mem_cons] at hch
    rcases hch with rfl | hch
    · exact ⟨by decide, by decide⟩
    · exact range_lenDigits2 ch hch

lemma range_genFormattedId {id : List Char}
    (hdig : ∀ c ∈ id, isDigitChar c = true) :
    ∀ c ∈ genFormattedId id, 46 ≤ c.toNat ∧ c.toNat ≤ 90 := by
  unfold genFormattedId
  intro c hc
  split_ifs at hc
  all_goals rw [List.mem_append] at hc
  all_goals rcases hc with hc | hc
  · fin_cases hc <;> exact ⟨by decide, by decide⟩
  · exact range_of_digit (hdig c (List.mem_of_mem_drop hc))
  · fin_cases hc <;> exact ⟨by decide, by decide⟩
  · exact range_of_digit (hdig c hc)
  · fin_cases hc <;> exact ⟨by decide, by decide⟩
  · exact range_of_digit (hdig c hc)

lemma range_genMerchantInfo {id : List Char}
    (hdig : ∀ c ∈ id, isDigitChar c = true) :
    ∀ c ∈ genMerchantInfo id, 46 ≤ c.toNat ∧ c.toNat ≤ 90 := by
  intro c hc
  obtain ⟨r, hr, hcr⟩ := mem_tlvEncode hc
  simp only [genMerchantInfo, List.mem_cons, List.not_mem_nil, or_false] at hr
  rcases hr with rfl | rfl
  · rcases hcr with hcr | hcr | hcr
    · fin_cases hcr <;> exact ⟨by decide, by decide⟩
    · exact range_lenDigits2 c hcr
    · fin_cases hcr <;> exact ⟨by decide, by decide⟩
  · rcases hcr with hcr | hcr | hcr
    · fin_cases hcr <;> exact ⟨by decide, by decide⟩
    · exact range_lenDigits2 c hcr
    · exact range_genFormattedId hdig c hcr

lemma range_crcHex4 {n : Nat} : ∀ c ∈ crcHex4 n, 46 ≤ c.toNat ∧ c.toNat ≤ 90 :=
  fun c hc => range_of_hex (crcHex4_mem n c hc)

lemma range_bodyNone {id : List Char}
    (hdig : ∀ c ∈ id, isDigitChar c = true) {r : List Char × List Char}
    (hr : r ∈ bodyNone id) :
    ∀ c, c ∈ r.1 ∨ c ∈ lenDigits2 r.2.length ∨ c ∈ r.2 →
      46 ≤ c.toNat ∧ c.toNat ≤ 90 := by
  simp only [bodyNone, List.mem_cons, List.not_mem_nil, or_false] at hr
  intro c hc
  rcases hr with rfl | rfl | rfl | rfl | rfl <;>
    rcases hc with hc | hc | hc <;>
    first
      | exact range_lenDigits2 c hc
      | exact range_genMerchantInfo hdig c hc
      | (fin_cases hc <;> exact ⟨by decide, by decide⟩)

lemma range_bodyAmt {id : List Char} (cents : Nat)
    (hdig : ∀ c ∈ id, isDigitChar c = true) {r : List Char × List Char}
    (hr : r ∈ bodyAmt id ((cents : ℚ) / 100)) :
    ∀ c, c ∈ r.1 ∨ c ∈ lenDigits2 r.2.length ∨ c ∈ r.2 →
      46 ≤ c.toNat ∧ c.toNat ≤ 90 := by
  simp only [bodyAmt, List.mem_cons, List.not_mem_nil, or_false] at hr
  intro c hc
  rcases hr with rfl | rfl | rfl | rfl | rfl | rfl <;>
    rcases hc with hc | hc | hc <;>
    first
      | exact range_lenDigits2 c hc
      | exact range_genMerchantInfo hdig c hc
      | exact range_toFixed2_cents cents c hc
      | (fin_cases hc <;> exact ⟨by decide, by decide⟩)

lemma range_generate_none {id : List Char}
    (hdig : ∀ c ∈ id, isDigitChar c = true) :
    ∀ c ∈ generatePromptPayPayload id none, 46 ≤ c.toNat ∧ c.toNat ≤ 90 := by
  intro c hc
  rw [generate_encode_none] at hc
  obtain ⟨r, hr, hcr⟩ := mem_tlvEncode hc
  rw [List.mem_append] at hr
  rcases hr with hr | hr
  · exact range_bodyNone hdig hr c hcr
  · simp only [List.mem_singleton] at hr
    subst hr
    rcases hcr with hcr | hcr | hcr
    · fin_cases hcr <;> exact ⟨by decide, by decide⟩
    · exact range_lenDigits2 c hcr
    · exact range_crcHex4 c hcr

lemma range_generate_cents {id : List Char} (cents : Nat)
    (hc0 : ¬ ((cents : ℚ) / 100) = 0)
    (hdig : ∀ c ∈ id, isDigitChar c = true) :
    ∀ c ∈ generatePromptPayPayload id (some ((cents : ℚ) / 100)),
      46 ≤ c.toNat ∧ c.toNat ≤ 90 := by
  intro c hc
  rw [generate_encode_some id _ hc0] at hc
  obtain ⟨r, hr, hcr⟩ := mem_tlvEncode hc
  rw [List.mem_append] at hr
  rcases hr with hr | hr
  · exact range_bodyAmt cents hdig hr c hcr
  · simp only [List.mem_singleton] at hr
    subst hr
    rcases hcr with hcr | hcr | hcr
    · fin_cases hcr <;> exact ⟨by decide, by decide⟩
    · exact range_lenDigits2 c hcr
    · exact range_crcHex4 c hcr

lemma genP1_length (id : List Char) (amt : Option ℚ) : 20 ≤ (genP1 id amt).length := by
  unfold genP1
  dsimp only
  simp only [List.length_append]
  have h1 : FIELD_PAYLOAD_FORMAT.length = 6 := rfl
  have h2 : FIELD_CURRENCY.length = 7 := rfl
  have h3 : FIELD_COUNTRY.length = 6 := rfl
  have h4 : FIELD_CRC_PLACEHOLDER.length = 4 := rfl
  omega

lemma generate_length (id : List Char) (amt : Option ℚ) :
    20 ≤ (generatePromptPayPayload id amt).length := by
  rw [generate_eq, List.length_append]
  have := genP1_length id amt
  omega

/-- Full characterization of `extractPromptPayAccount` on a well-formed
merchant-info sub-TLV carrying the AID and one identifier. -/
lemma extract_encode (rawId : List Char) (fuel : Nat)
    (h0 : rawId ≠ []) (hlen : rawId.length ≤ 99) (hfuel : 2 < fuel) :
    extractPromptPayAccount fuel
        (tlvEncode [(SUBTAG_AID, PROMPTPAY_AID), (SUBTAG_PHONE, rawId)]) =
      some (some
        { accountId :=
            if (if rawId.take 2 = DOUBLE_ZERO then rawId.drop 4 else rawId).length = 9
            then '0' :: (if rawId.take 2 = DOUBLE_ZERO then rawId.drop 4 else rawId)
            else (if rawId.take 2 = DOUBLE_ZERO then rawId.drop 4 else rawId),
          accountType :=
            if (if rawId.take 2 = DOUBLE_ZERO then rawId.drop 4 else rawId).length = 13
            then .national_id else .phone }) := by
  have hne : rawId.isEmpty = false := by
    cases rawId
    · exact absurd rfl h0
    · rfl
  have hAid : tlvGet [(SUBTAG_AID, PROMPTPAY_AID), (SUBTAG_PHONE, rawId)] SUBTAG_AID
      = some PROMPTPAY_AID := rfl
  have hPhone : tlvGet [(SUBTAG_AID, PROMPTPAY_AID), (SUBTAG_PHONE, rawId)] SUBTAG_PHONE
      = some rawId := rfl
  have hNid : tlvGet [(SUBTAG_AID, PROMPTPAY_AID), (SUBTAG_PHONE, rawId)] SUBTAG_NATIONAL_ID
      = none := rfl
  unfold extractPromptPayAccount
  rw [parseTLV_encode _ fuel (by simpa using hfuel) ?hr]
  case hr =>
    intro r hr
    simp only [List.mem_cons, List.not_mem_nil, or_false] at hr
    rcases hr with rfl | rfl
    · exact ⟨rfl, by decide⟩
    · exact ⟨rfl, hlen⟩
  dsimp only
  rw [hAid, if_neg (by simp), hPhone, hNid]
  have hOr : jsOrStr (some rawId) none = some rawId := by
    simp [jsOrStr, hne]
  rw [hOr]
  dsimp only
  rw [if_neg (by simp [hne] : ¬ (rawId.isEmpty = true))]
  split_ifs <;> first | rfl | omega

lemma genFormattedId_ne_nil (id : List Char) : genFormattedId id ≠ [] := by
  unfold genFormattedId
  split_ifs <;>
    (intro hh; rw [List.append_eq_nil] at hh; exact absurd hh.1 (by decide))

lemma genFormattedId_length_le (id : List Char) (h : id.length ≤ 13) :
    (genFormattedId id).length ≤ 17 := by
  unfold genFormattedId
  have h1 : COUNTRY_PHONE_PREFIX.length = 4 := rfl
  have h2 : NATIONAL_ID_PREFIX.length = 4 := rfl
  split_ifs <;> simp [List.length_append, h1, h2] <;> omega

lemma genFormattedId_take2 (id : List Char) :
    (genFormattedId id).take 2 = DOUBLE_ZERO := by
  unfold genFormattedId
  split_ifs <;> rfl

lemma genFormattedId_drop4 (id : List Char) :
    (genFormattedId id).drop 4
      = if id.length ≤ 10 then (if id.take 1 = ['0'] then id.drop 1 else id) else id := by
  unfold genFormattedId
  split_ifs <;> rfl

lemma genMerchantInfo_length_le (id : List Char) (h : id.length ≤ 13) :
    (genMerchantInfo id).length ≤ 99 := by
  rw [genMerchantInfo_eq]
  simp only [List.length_append]
  have h1 : (lenDigits2 PROMPTPAY_AID.length).length = 2 := lenDigits2_length (by decide)
  have h2 : (lenDigits2 (genFormattedId id).length).length = 2 :=
    lenDigits2_length (by have := genFormattedId_length_le id h; omega)
  have h3 : (genFormattedId id).length ≤ 17 := genFormattedId_length_le id h
  have h4 : SUBTAG_AID.length = 2 := rfl
  have h5 : SUBTAG_PHONE.length = 2 := rfl
  have h6 : PROMPTPAY_AID.length = 16 := rfl
  omega

lemma genMerchantInfo_isEmpty (id : List Char) : (genMerchantInfo id).isEmpty = false := rfl

/-- Parsing a generated payload without an amount: full characterization. -/
lemma parse_generate_none (id : List Char)
    (hdig : ∀ c ∈ id, isDigitChar c = true) (hid13 : id.length ≤ 13) :
    parsePromptPayQR ((generatePromptPayPayload id none).length + 1)
        (generatePromptPayPayload id none)
      = some (.ok {
          accountId :=
            if (if (genFormattedId id).take 2 = DOUBLE_ZERO
                then (genFormattedId id).drop 4 else genFormattedId id).length = 9
            then '0' :: (if (genFormattedId id).take 2 = DOUBLE_ZERO
                then (genFormattedId id).drop 4 else genFormattedId id)
            else (if (genFormattedId id).take 2 = DOUBLE_ZERO
                then (genFormattedId id).drop 4 else genFormattedId id),
          accountType :=
            if (if (genFormattedId id).take 2 = DOUBLE_ZERO
                then (genFormattedId id).drop 4 else genFormattedId id).length = 13
            then .national_id else .phone,
          merchantName := none,
          amount := none,
          currency := DEFAULT_CURRENCY,
          country := DEFAULT_COUNTRY,
          rawPayload := generatePromptPayPayload id none,
          isValid := true }) := by
  have hchars := range_generate_none hdig
  have hclean : cleanPayload (generatePromptPayPayload id none)
      = generatePromptPayPayload id none :=
    cleanPayload_eq_self (fun ch hch => not_ws_of_range (hchars ch hch).1 (hchars ch hch).2)
  have h20 := generate_length id none
  have hTLV : parseTLV (generatePromptPayPayload id none)
      ((generatePromptPayPayload id none).length + 1)
      = some (bodyNone id
          ++ [(TAG_CRC, crcHex4 (crc16ccitt (strBytes (genP1 id none))))]) := by
    rw [generate_encode_none id]
    apply parseTLV_encode
    · have h20' := generate_length id none
      rw [generate_encode_none id] at h20'
      have h6 : (bodyNone id
          ++ [(TAG_CRC, crcHex4 (crc16ccitt (strBytes (genP1 id none))))]).length = 6 := by
        simp [bodyNone]
      omega
    · intro r hr
      simp only [bodyNone, List.mem_append, List.mem_cons, List.not_mem_nil, or_false,
        List.mem_singleton, or_assoc] at hr
      rcases hr with rfl | rfl | rfl | rfl | rfl | rfl
      · exact ⟨rfl, by decide⟩
      · exact ⟨rfl, by decide⟩
      · exact ⟨rfl, genMerchantInfo_length_le id hid13⟩
      · exact ⟨rfl, by decide⟩
      · exact ⟨rfl, by decide⟩
      · exact ⟨rfl, by rw [crcHex4_length (crc16ccitt_lt _)]; omega⟩
  have hex : extractPromptPayAccount ((generatePromptPayPayload id none).length + 1)
      (genMerchantInfo id)
      = some (some
        { accountId :=
            if (if (genFormattedId id).take 2 = DOUBLE_ZERO
                then (genFormattedId id).drop 4 else genFormattedId id).length = 9
            then '0' :: (if (genFormattedId id).take 2 = DOUBLE_ZERO
                then (genFormattedId id).drop 4 else genFormattedId id)
            else (if (genFormattedId id).take 2 = DOUBLE_ZERO
                then (genFormattedId id).drop 4 else genFormattedId id),
          accountType :=
            if (if (genFormattedId id).take 2 = DOUBLE_ZERO
                then (genFormattedId id).drop 4 else genFormattedId id).length = 13
            then .national_id else .phone }) := by
    show extractPromptPayAccount _
      (tlvEncode [(SUBTAG_AID, PROMPTPAY_AID), (SUBTAG_PHONE, genFormattedId id)]) = _
    exact extract_encode (genFormattedId id) _ (genFormattedId_ne_nil id)
      (by have := genFormattedId_length_le id hid13; omega) (by omega)
  have g00 : tlvGet (bodyNone id
      ++ [(TAG_CRC, crcHex4 (crc16ccitt (strBytes (genP1 id none))))])
      TAG_PAYLOAD_FORMAT = some PAYLOAD_FORMAT_01 := rfl
  have g29 : tlvGet (bodyNone id
      ++ [(TAG_CRC, crcHex4 (crc16ccitt (strBytes (genP1 id none))))])
      TAG_MERCHANT_ACCOUNT_INFO = some (genMerchantInfo id) := rfl
  have g30 : tlvGet (bodyNone id
      ++ [(TAG_CRC, crcHex4 (crc16ccitt (strBytes (genP1 id none))))])
      TAG_MERCHANT_ACCOUNT_INFO_ALT = none := rfl
  have g53 : tlvGet (bodyNone id
      ++ [(TAG_CRC, crcHex4 (crc16ccitt (strBytes (genP1 id none))))])
      TAG_TRANSACTION_CURRENCY = some DEFAULT_CURRENCY := rfl
  have g54 : tlvGet (bodyNone id
      ++ [(TAG_CRC, crcHex4 (crc16ccitt (strBytes (genP1 id none))))])
      TAG_TRANSACTION_AMOUNT = none := rfl
  have g58 : tlvGet (bodyNone id
      ++ [(TAG_CRC, crcHex4 (crc16ccitt (strBytes (genP1 id none))))])
      TAG_COUNTRY_CODE = some DEFAULT_COUNTRY := rfl
  have g59 : tlvGet (bodyNone id
      ++ [(TAG_CRC, crcHex4 (crc16ccitt (strBytes (genP1 id none))))])
      TAG_MERCHANT_NAME = none := rfl
  have hval : validateCRC (generatePromptPayPayload id none) = true := by
    rw [generate_eq]
    exact validateCRC_of_append_crc _
  unfold parsePromptPayQR
  dsimp only
  rw [hclean, if_neg (by omega), hTLV]
  dsimp only
  rw [g00, if_neg (by simp), g29, g30]
  rw [show jsOrStr (some (genMerchantInfo id)) none = some (genMerchantInfo id) from rfl]
  dsimp only
  rw [if_neg (by rw [genMerchantInfo_isEmpty]; simp), hex]
  dsimp only
  rw [g54]
  dsimp only
  rw [g59, g53, g58, hval]
  rfl

/-- Parsing a generated payload with a positive cent amount: full
characterization. -/
lemma parse_generate_cents (id : List Char) (cents : Nat)
    (hdig : ∀ c ∈ id, isDigitChar c = true) (hid13 : id.length ≤ 13)
    (hc0 : 0 < cents) (hclt : cents < 10 ^ 10) :
    parsePromptPayQR
        ((generatePromptPayPayload id (some ((cents : ℚ) / 100))).length + 1)
        (generatePromptPayPayload id (some ((cents : ℚ) / 100)))
      = some (.ok {
          accountId :=
            if (if (genFormattedId id).take 2 = DOUBLE_ZERO
                then (genFormattedId id).drop 4 else genFormattedId id).length = 9
            then '0' :: (if (genFormattedId id).take 2 = DOUBLE_ZERO
                then (genFormattedId id).drop 4 else genFormattedId id)
            else (if (genFormattedId id).take 2 = DOUBLE_ZERO
                then (genFormattedId id).drop 4 else genFormattedId id),
          accountType :=
            if (if (genFormattedId id).take 2 = DOUBLE_ZERO
                then (genFormattedId id).drop 4 else genFormattedId id).length = 13
            then .national_id else .phone,
          merchantName := none,
          amount := some (some ((cents : ℚ) / 100)),
          currency := DEFAULT_CURRENCY,
          country := DEFAULT_COUNTRY,
          rawPayload := generatePromptPayPayload id (some ((cents : ℚ) / 100)),
          isValid := true }) := by
  have ha : ¬ ((cents : ℚ) / 100) = 0 := by
    have hq : (0 : ℚ) < (cents : ℚ) / 100 := by
      apply div_pos
      · exact_mod_cast hc0
      · norm_num
    exact fun h => absurd (h ▸ hq) (lt_irrefl 0)
  have hchars := range_generate_cents cents ha hdig
  have hclean : cleanPayload (generatePromptPayPayload id (some ((cents : ℚ) / 100)))
      = generatePromptPayPayload id (some ((cents : ℚ) / 100)) :=
    cleanPayload_eq_self (fun ch hch => not_ws_of_range (hchars ch hch).1 (hchars ch hch).2)
  have h20 := generate_length id (some ((cents : ℚ) / 100))
  have hsE : (toFixed2 ((cents : ℚ) / 100)).isEmpty = false := by
    rw [toFixed2_cents]
    rcases h : natToDec (cents / 100) with _ | ⟨d, ds⟩
    · exact absurd h (natToDec_ne_nil _)
    · rfl
  have hTLV : parseTLV (generatePromptPayPayload id (some ((cents : ℚ) / 100)))
      ((generatePromptPayPayload id (some ((cents : ℚ) / 100))).length + 1)
      = some (bodyAmt id ((cents : ℚ) / 100)
          ++ [(TAG_CRC,
            crcHex4 (crc16ccitt (strBytes (genP1 id (some ((cents : ℚ) / 100))))))]) := by
    rw [generate_encode_some id _ ha]
    apply parseTLV_encode
    · have h20' := generate_length id (some ((cents : ℚ) / 100))
      rw [generate_encode_some id _ ha] at h20'
      have h7 : (bodyAmt id ((cents : ℚ) / 100)
          ++ [(TAG_CRC,
            crcHex4 (crc16ccitt (strBytes (genP1 id (some ((cents : ℚ) / 100))))))]).length
          = 7 := by
        simp [bodyAmt]
      omega
    · intro r hr
      simp only [bodyAmt, List.mem_append, List.mem_cons, List.not_mem_nil, or_false,
        List.mem_singleton, or_assoc] at hr
      rcases hr with rfl | rfl | rfl | rfl | rfl | rfl | rfl
      · exact ⟨rfl, by decide⟩
      · exact ⟨rfl, by decide⟩
      · exact ⟨rfl, genMerchantInfo_length_le id hid13⟩
      · exact ⟨rfl, by decide⟩
      · exact ⟨rfl, toFixed2_length_le cents hclt⟩
      · exact ⟨rfl, by decide⟩
      · exact ⟨rfl, by rw [crcHex4_length (crc16ccitt_lt _)]; omega⟩
  have hex : extractPromptPayAccount
      ((generatePromptPayPayload id (some ((cents : ℚ) / 100))).length + 1)
      (genMerchantInfo id)
      = some (some
        { accountId :=
            if (if (genFormattedId id).take 2 = DOUBLE_ZERO
                then (genFormattedId id).drop 4 else genFormattedId id).length = 9
            then '0' :: (if (genFormattedId id).take 2 = DOUBLE_ZERO
                then (genFormattedId id).drop 4 else genFormattedId id)
            else (if (genFormattedId id).take 2 = DOUBLE_ZERO
                then (genFormattedId id).drop 4 else genFormattedId id),
          accountType :=
            if (if (genFormattedId id).take 2 = DOUBLE_ZERO
                then (genFormattedId id).drop 4 else genFormattedId id).length = 13
            then .national_id else .phone }) := by
    show extractPromptPayAccount _
      (tlvEncode [(SUBTAG_AID, PROMPTPAY_AID), (SUBTAG_PHONE, genFormattedId id)]) = _
    exact extract_encode (genFormattedId id) _ (genFormattedId_ne_nil id)
      (by have := genFormattedId_length_le id hid13; omega) (by omega)
  have g00 : tlvGet (bodyAmt id ((cents : ℚ) / 100)
      ++ [(TAG_CRC, crcHex4 (crc16ccitt (strBytes (genP1 id (some ((cents : ℚ) / 100))))))])
      TAG_PAYLOAD_FORMAT = some PAYLOAD_FORMAT_01 := rfl
  have g29 : tlvGet (bodyAmt id ((cents : ℚ) / 100)
      ++ [(TAG_CRC, crcHex4 (crc16ccitt (strBytes (genP1 id (some ((cents : ℚ) / 100))))))])
      TAG_MERCHANT_ACCOUNT_INFO = some (genMerchantInfo id) := rfl
  have g30 : tlvGet (bodyAmt id ((cents : ℚ) / 100)
      ++ [(TAG_CRC, crcHex4 (crc16ccitt (strBytes (genP1 id (some ((cents : ℚ) / 100))))))])
      TAG_MERCHANT_ACCOUNT_INFO_ALT = none := rfl
  have g53 : tlvGet (bodyAmt id ((cents : ℚ) / 100)
      ++ [(TAG_CRC, crcHex4 (crc16ccitt (strBytes (genP1 id (some ((cents : ℚ) / 100))))))])
      TAG_TRANSACTION_CURRENCY = some DEFAULT_CURRENCY := rfl
  have g54 : tlvGet (bodyAmt id ((cents : ℚ) / 100)
      ++ [(TAG_CRC, crcHex4 (crc16ccitt (strBytes (genP1 id (some ((cents : ℚ) / 100))))))])
      TAG_TRANSACTION_AMOUNT = some (toFixed2 ((cents : ℚ) / 100)) := rfl
  have g58 : tlvGet (bodyAmt id ((cents : ℚ) / 100)
      ++ [(TAG_CRC, crcHex4 (crc16ccitt (strBytes (genP1 id (some ((cents : ℚ) / 100))))))])
      TAG_COUNTRY_CODE = some DEFAULT_COUNTRY := rfl
  have g59 : tlvGet (bodyAmt id ((cents : ℚ) / 100)
      ++ [(TAG_CRC, crcHex4 (crc16ccitt (strBytes (genP1 id (some ((cents : ℚ) / 100))))))])
      TAG_MERCHANT_NAME = none := rfl
  have hval : validateCRC (generatePromptPayPayload id (some ((cents : ℚ) / 100))) = true := by
    rw [generate_eq]
    exact validateCRC_of_append_crc _
  unfold parsePromptPayQR
  dsimp only
  rw [hclean, if_neg (by omega), hTLV]
  dsimp only
  rw [g00, if_neg (by simp), g29, g30]
  rw [show jsOrStr (some (genMerchantInfo id)) none = some (genMerchantInfo id) from rfl]
  dsimp only
  rw [if_neg (by rw [genMerchantInfo_isEmpty]; simp), hex]
  dsimp only
  rw [g54]
  dsimp only
  have hneg : ¬ ((toFixed2 ((cents : ℚ) / 100)).isEmpty = true) := by
    rw [hsE]
    simp
  rw [if_neg hneg, jsParseFloat_toFixed2]
  rw [g59, g53, g58, hval]
  rfl

lemma cons_drop_of_take1 {id : List Char} (h : id.take 1 = ['0']) :
    '0' :: id.drop 1 = id := by
  cases id with
  | nil => exact absurd h (by decide)
  | cons c t =>
    have hc : c = '0' := by
      have h' : [c] = ['0'] := h
      simpa using h'
    subst hc
    rfl

lemma normal_accountId_eq (id : List Char) (hlen : id.length = 10 ∨ id.length = 13) :
    (if (if (genFormattedId id).take 2 = DOUBLE_ZERO
        then (genFormattedId id).drop 4 else genFormattedId id).length = 9
     then '0' :: (if (genFormattedId id).take 2 = DOUBLE_ZERO
        then (genFormattedId id).drop 4 else genFormattedId id)
     else (if (genFormattedId id).take 2 = DOUBLE_ZERO
        then (genFormattedId id).drop 4 else genFormattedId id)) = id := by
  rw [genFormattedId_take2, if_pos rfl, genFormattedId_drop4]
  rcases hlen with h | h
  · rw [if_pos (show id.length ≤ 10 by omega)]
    by_cases h1 : id.take 1 = ['0']
    · rw [if_pos h1, if_pos (show (id.drop 1).length = 9 by rw [List.length_drop]; omega)]
      exact cons_drop_of_take1 h1
    · rw [if_neg h1, if_neg (show ¬ id.length = 9 by omega)]
  · rw [if_neg (show ¬ id.length ≤ 10 by omega), if_neg (show ¬ id.length = 9 by omega)]

lemma normal_accountType_eq (id : List Char) (hlen : id.length = 10 ∨ id.length = 13) :
    (if (if (genFormattedId id).take 2 = DOUBLE_ZERO
        then (genFormattedId id).drop 4 else genFormattedId id).length = 13
     then AccountType.national_id else AccountType.phone)
      = (if id.length = 13 then AccountType.national_id else AccountType.phone) := by
  rw [genFormattedId_take2, if_pos rfl, genFormattedId_drop4]
  rcases hlen with h | h
  · rw [if_pos (show id.length ≤ 10 by omega)]
    by_cases h1 : id.take 1 = ['0']
    · rw [if_pos h1,
        if_neg (show ¬ (id.drop 1).length = 13 by rw [List.length_drop]; omega),
        if_neg (show ¬ id.length = 13 by omega)]
    · rw [if_neg h1, if_neg (show ¬ id.length = 13 by omega)]
  · rw [if_neg (show ¬ id.length ≤ 10 by omega), if_pos (show id.length = 13 from h)]

/-! ### C1 — QR round-trip -/

/-- C1 (amended): the round-trip law holds for account ids of length 10 or 13
(digits) and amounts that are either absent or a positive whole number of
cents below 10^10 (covering `0 < amount < 10^8` THB to cent precision):
parsing the generated payload succeeds and returns the same `accountId`, the
expected `accountType`, the same amount, and `isValid = true`.  For 9-digit
ids the law fails (see the counterexample): the parsed id comes back with a
`"0"` prepended. -/
theorem generate_parse_roundtrip (id : List Char) (amt : Option ℚ)
    (hdig : ∀ c ∈ id, isDigitChar c = true)
    (hlen : id.length = 10 ∨ id.length = 13)
    (hamt : amt = none ∨
      ∃ cents : ℕ, 0 < cents ∧ cents < 10 ^ 10 ∧ amt = some ((cents : ℚ) / 100)) :
    ∃ d, parsePromptPayQR ((generatePromptPayPayload id amt).length + 1)
        (generatePromptPayPayload id amt) = some (.ok d) ∧
      d.accountId = id ∧
      d.accountType = (if id.length = 13 then AccountType.national_id else .phone) ∧
      d.amount = amt.map some ∧
      d.isValid = true := by
  have hid13 : id.length ≤ 13 := by
    rcases hlen with h | h <;> omega
  rcases hamt with rfl | ⟨cents, hc0, hclt, rfl⟩
  · exact ⟨_, parse_generate_none id hdig hid13,
      normal_accountId_eq id hlen, normal_accountType_eq id hlen, rfl, rfl⟩
  · exact ⟨_, parse_generate_cents id cents hdig hid13 hc0 hclt,
      normal_accountId_eq id hlen, normal_accountType_eq id hlen, rfl, rfl⟩

/-- C1 counterexample: the 9-digit account id `"812345678"` is within the
claim's scope, but parsing its generated payload returns accountId
`"0812345678"`, not the input: the round-trip law fails for length 9. -/
theorem nine_digit_roundtrip_fails :
    ∃ d, parsePromptPayQR ((generatePromptPayPayload "812345678".toList none).length + 1)
        (generatePromptPayPayload "812345678".toList none) = some (.ok d) ∧
      d.accountId = "0812345678".toList ∧ d.accountId ≠ "812345678".toList :=
  ⟨_, parse_generate_none ("812345678".toList) (by decide) (by decide),
    by decide, by decide⟩

/-- C1 witness: the 10-digit phone id `"0812345678"` with no amount
round-trips. -/
theorem generate_parse_roundtrip_witness :
    ∃ d, parsePromptPayQR ((generatePromptPayPayload "0812345678".toList none).length + 1)
        (generatePromptPayPayload "0812345678".toList none) = some (.ok d) ∧
      d.accountId = "0812345678".toList ∧
      d.accountType
        = (if ("0812345678".toList).length = 13 then AccountType.national_id else .phone) ∧
      d.amount = Option.map some (none : Option ℚ) ∧
      d.isValid = true :=
  generate_parse_roundtrip ("0812345678".toList) none (by decide) (Or.inl (by decide))
    (Or.inl rfl)

set_option maxRecDepth 4000 in
/-- C2 counterexample: an identifier of length 5 — not 13, 10, or 9 — does
not cause the parse to fail: no `InvalidAccountId` error exists in the code.
The parse succeeds and returns the identifier unchanged as a phone account. -/
theorem extract_no_invalid_account_id :
    ∃ d, parsePromptPayQR 40 shortIdPayload = some (.ok d) ∧
      d.accountId = "12345".toList ∧ d.accountType = .phone :=
  ⟨_, rfl, rfl, rfl⟩

/-- C2 (amended): when extracting the account from a well-formed
merchant-account-info sub-TLV, an identifier starting with `"00"` has its
first 4 characters dropped; after normalization a 13-character identifier is
classified `national_id`, a 9-character identifier gets `"0"` prepended, and
every other length — 10 included — is returned unchanged and classified
`phone`.  No length is rejected: the code has no `InvalidAccountId` error. -/
theorem extract_normalization (rawId : List Char) (fuel : Nat)
    (h0 : rawId ≠ []) (hlen : rawId.length ≤ 99) (hfuel : 2 < fuel) :
    extractPromptPayAccount fuel
        (tlvEncode [(SUBTAG_AID, PROMPTPAY_AID), (SUBTAG_PHONE, rawId)]) =
      some (some
        { accountId :=
            if (if rawId.take 2 = DOUBLE_ZERO then rawId.drop 4 else rawId).length = 9
            then '0' :: (if rawId.take 2 = DOUBLE_ZERO then rawId.drop 4 else rawId)
            else (if rawId.take 2 = DOUBLE_ZERO then rawId.drop 4 else rawId),
          accountType :=
            if (if rawId.take 2 = DOUBLE_ZERO then rawId.drop 4 else rawId).length = 13
            then .national_id else .phone }) :=
  extract_encode rawId fuel h0 hlen hfuel

/-- C2 witness: the 10-digit identifier `"0812345678"` is classified as a
phone account unchanged. -/
theorem extract_normalization_witness :
    extractPromptPayAccount 3
        (tlvEncode [(SUBTAG_AID, PROMPTPAY_AID), (SUBTAG_PHONE, "0812345678".toList)]) =
      some (some { accountId := "0812345678".toList, accountType := .phone }) :=
  (extract_normalization ("0812345678".toList) 3 (by decide) (by decide)
    (by decide)).trans (by decide)

/-! ### C7 — CRC mismatch is non-fatal -/

/-- C7: whenever `parsePromptPayQR` returns a success result, its `isValid`
field equals exactly the CRC comparison `validateCRC` (CRC-16/CCITT of the
payload minus its last four characters against the trailing four hex
characters, case-insensitively); a CRC mismatch never aborts the parse — no
error branch consults the CRC. -/
theorem parse_isValid_eq_crc (fuel : Nat) (payload : List Char)
    (d : PromptPayData) (h : parsePromptPayQR fuel payload = some (.ok d)) :
    d.isValid = validateCRC (cleanPayload payload) := by
  unfold parsePromptPayQR at h
  dsimp only at h
  by_cases hshort : (cleanPayload payload).length < 20
  · rw [if_pos hshort] at h
    simp at h
  · rw [if_neg hshort] at h
    rcases hf : parseTLV (cleanPayload payload) fuel with _ | fields <;> rw [hf] at h
    · simp at h
    · dsimp only at h
      split at h
      · simp at h
      · rcases hmi : jsOrStr (tlvGet fields TAG_MERCHANT_ACCOUNT_INFO)
            (tlvGet fields TAG_MERCHANT_ACCOUNT_INFO_ALT) with _ | mi <;> rw [hmi] at h
        · simp at h
        · dsimp only at h
          split at h
          · simp at h
          · rcases he : extractPromptPayAccount fuel mi with _ | acc <;> rw [he] at h
            · simp at h
            · rcases acc with _ | account
              · simp at h
              · dsimp only at h
                simp only [Option.some.injEq, PromptPayQRResult.ok.injEq] at h
                subst h
                rfl

/-- C7 witness: a concrete payload whose parse succeeds; its `isValid` field
is the CRC comparison outcome. -/
theorem parse_isValid_eq_crc_witness :
    ∃ d, parsePromptPayQR 40 shortIdPayload = some (.ok d) ∧
      d.isValid = validateCRC (cleanPayload shortIdPayload) :=
  ⟨_, rfl, parse_isValid_eq_crc 40 shortIdPayload _ rfl⟩

/-! ### C10 — parser totality -/

lemma jsOrStr_eq_some {a b : Option (List Char)} {v : List Char}
    (h : jsOrStr a b = some v) : a = some v ∨ b = some v := by
  unfold jsOrStr at h
  rcases a with _ | s
  · exact Or.inr h
  · dsimp only at h
    by_cases hs : s.isEmpty
    · rw [if_pos hs] at h
      exact Or.inr h
    · rw [if_neg hs] at h
      exact Or.inl h

lemma tlvGet_mem {m : TLVEntries} {k v : List Char} (h : tlvGet m k = some v) :
    ∃ e ∈ m, e.2 = v := by
  unfold tlvGet at h
  rcases hf : m.reverse.find? (fun e => e.1 == k) with _ | e
  · rw [hf] at h
    simp at h
  · rw [hf] at h
    simp only [Option.map_some', Option.some.injEq] at h
    exact ⟨e, List.mem_reverse.mp (List.mem_of_find?_eq_some hf), h⟩

lemma extract_isSome (fuel : Nat) (mi : List Char)
    (hminus : ∀ c ∈ mi, ¬ c = '-') (hfuel : 1 ≤ fuel)
    (hlen : (mi.length : Int) + 4 ≤ 4 * (fuel : Int)) :
    (extractPromptPayAccount fuel mi).isSome = true := by
  unfold extractPromptPayAccount
  have h1 : (parseTLV mi fuel).isSome = true := by
    unfold parseTLV
    apply parseTLVGo_isSome mi hminus fuel 0 [] hfuel
    omega
  rcases hf : parseTLV mi fuel with _ | fields
  · rw [hf] at h1
    simp at h1
  · dsimp only
    split
    · rfl
    · rcases jsOrStr (tlvGet fields SUBTAG_PHONE) (tlvGet fields SUBTAG_NATIONAL_ID)
        with _ | pid
      · rfl
      · dsimp only
        split_ifs <;> rfl

/-- C10 counterexample: on the 20-character input `"ab-4aaaaaaaaaaaaaaaa"` the
TLV loop reads length field `"-4"` and returns to position 0 on every
iteration, so neither `parseTLV` nor `parsePromptPayQR` terminates. -/
theorem parse_diverges_on_negative_length :
    ¬ ParsePromptPayQRTerminates badTLVInput ∧ ¬ ParseTLVTerminates badTLVInput := by
  have hTLV : ∀ fuel, parseTLV badTLVInput fuel = none := fun fuel => badTLV_none fuel []
  constructor
  · rintro ⟨fuel, hf⟩
    have hbad : parsePromptPayQR fuel badTLVInput = none := by
      unfold parsePromptPayQR
      have hclean : cleanPayload badTLVInput = badTLVInput := by decide
      rw [hclean, if_neg (by decide), hTLV fuel]
    rw [hbad] at hf
    simp at hf
  · rintro ⟨fuel, hf⟩
    rw [hTLV fuel] at hf
    simp at hf

/-- C10 (amended): the justification in the claim is wrong — a length field
may also parse as a negative number (e.g. `"-4"`), moving the position
backwards, and then the loop need not terminate (see the counterexample).  On
every input in which no `'-'` occurs (so every length field parses as `NaN` or
a nonnegative number, and each iteration advances the position by at least 4
or ends the loop), `parsePromptPayQR` terminates and returns a structured
result. -/
theorem parse_total_without_minus (payload : List Char)
    (h : ∀ c ∈ payload, ¬ c = '-') :
    (parsePromptPayQR (payload.length + 1) payload).isSome = true := by
  have hcleanS : ∀ c ∈ cleanPayload payload, ¬ c = '-' :=
    fun c hc => h c (List.mem_of_mem_filter hc)
  have hcleanLen : (cleanPayload payload).length ≤ payload.length :=
    List.length_filter_le _ _
  unfold parsePromptPayQR
  dsimp only
  split
  · rfl
  · have h1 : (parseTLV (cleanPayload payload) (payload.length + 1)).isSome = true := by
      unfold parseTLV
      apply parseTLVGo_isSome _ hcleanS _ 0 [] (by omega)
      push_cast
      omega
    rcases hf : parseTLV (cleanPayload payload) (payload.length + 1) with _ | fields
    · rw [hf] at h1
      simp at h1
    · have hvals := parseTLVGo_values (cleanPayload payload) (payload.length + 1) 0 [] fields
        (by simp) hf
      dsimp only
      split
      · rfl
      · rcases hmi : jsOrStr (tlvGet fields TAG_MERCHANT_ACCOUNT_INFO)
            (tlvGet fields TAG_MERCHANT_ACCOUNT_INFO_ALT) with _ | mi
        · rfl
        · dsimp only
          split
          · rfl
          · have hmem : ∃ e ∈ fields, e.2 = mi := by
              rcases jsOrStr_eq_some hmi with hg | hg
              · exact tlvGet_mem hg
              · exact tlvGet_mem hg
            obtain ⟨e, he, hev⟩ := hmem
            have hprops := hvals e he
            have hex : (extractPromptPayAccount (payload.length + 1) mi).isSome = true := by
              apply extract_isSome _ _ ?_ (by omega) ?_
              · intro c hc
                rw [← hev] at hc
                exact hcleanS c (hprops.1 c hc)
              · have : mi.length ≤ (cleanPayload payload).length := by
                  rw [← hev]
                  exact hprops.2
                push_cast
                omega
            rcases he2 : extractPromptPayAccount (payload.length + 1) mi with _ | acc
            · rw [he2] at hex
              simp at hex
            · rcases acc with _ | account
              · rfl
              · rfl

/-- C10 witness: the parser terminates with a structured result on a
20-character input without a minus sign. -/
theorem parse_total_without_minus_witness :
    (parsePromptPayQR (("aaaaaaaaaaaaaaaaaaaa".toList).length + 1)
      ("aaaaaaaaaaaaaaaaaaaa".toList)).isSome = true :=
  parse_total_without_minus ("aaaaaaaaaaaaaaaaaaaa".toList) (by decide)

/-- C9 witness: from ONLINE with every probe rejected the status changes and
the registered subscriber 0 is notified with the new status. -/
theorem notify_spec_witness :
    (NetworkStatusDetector.check detectorOnline probeDead).2
      = detectorOnline.listeners.map
          (fun l => (l, (NetworkStatusDetector.check detectorOnline probeDead).1.status)) :=
  (notify_spec detectorOnline probeDead).1 (by decide)

end BoonLink
